import Mathlib

/-!
Verification development for the CharB0T in-guild economy engine.

The definitions below are a shallow embedding of the Python source:
`charbot/gangs/enums.py`, `charbot/gangs/actions/user_items.py`,
`charbot/gangs/actions/gang_items.py` and `charbot/reputation_admin.py`.
Database tables are modelled as Lean lists of row structures; SQL
`SELECT ... WHERE` is `List.find?`, `UPDATE ... WHERE` maps over the rows,
`DELETE` filters, and the `INSERT ... ON CONFLICT DO UPDATE` upserts are
modelled as insert-if-absent-else-increment.  Each operation runs inside one
database transaction in the source, so an operation is a pure function from
the database state to a new state plus a result; a Python exception is
modelled as `Except.error`, in which case the transaction rolls back and the
state is unchanged (the `.error` result carries no state).
-/

/-- Benefits enum from `charbot/gangs/enums.py`.  The Python enum has seven
distinct members; the eighth declaration `other_consumable = "other"` reuses
the value of `other`, so Python makes it a mere alias of `other` (see
`Benefits.attr`). -/
inductive Benefits where
  | control
  | control_consumable
  | defense
  | defense_consumable
  | offense
  | offense_consumable
  | other
deriving DecidableEq, Repr

/-- Attribute lookup on the `Benefits` enum class: `Benefits.x` in Python
resolves the member named `x`, raising `AttributeError` (here `none`) when no
member of that name exists.  `"other_consumable"` resolves to the alias target
`other` because both declarations share the value `"other"`. -/
def Benefits.attr : String → Option Benefits
  | "control" => some .control
  | "control_consumable" => some .control_consumable
  | "defense" => some .defense
  | "defense_consumable" => some .defense_consumable
  | "offense" => some .offense
  | "offense_consumable" => some .offense_consumable
  | "other" => some .other
  | "other_consumable" => some .other
  | _ => none

/-- Python runtime exceptions that the embedded operations can raise. -/
inductive PyErr where
  | typeError
  | attributeError (name : String)
  | assertionError
  | zeroDivisionError
deriving DecidableEq, Repr

/-- Python values returned by operations typed `str | int` (a missing
database row can additionally make `fetchval` return `None`). -/
inductive PyVal where
  | str (s : String)
  | int (n : Int)
  | noneVal
deriving DecidableEq, Repr

/-- Row of `gang_members(user_id PK, gang, leader, leadership)`. -/
structure GangMember where
  user_id : Nat
  gang : String
  leader : Bool
  leadership : Bool
deriving DecidableEq, Repr

/-- Row of `user_items` / `gang_items`
(`id PK, name UNIQUE, cost, value, benefit, description`). -/
structure ItemRow where
  id : Nat
  name : String
  cost : Nat
  value : Nat
  benefit : Benefits
  description : String
deriving DecidableEq, Repr

/-- Row of `user_inventory(user_id, item, quantity, PK(user_id,item))`. -/
structure UserInvRow where
  user_id : Nat
  item : Nat
  quantity : Nat
deriving DecidableEq, Repr

/-- Row of `gang_inventory(gang, item, quantity, PK(gang,item))`. -/
structure GangInvRow where
  gang : String
  item : Nat
  quantity : Nat
deriving DecidableEq, Repr

/-- Row of `territories(id PK, gang, attack, defense)`. -/
structure TerritoryRow where
  id : Nat
  gang : String
  attack : Int
  defense : Int
deriving DecidableEq, Repr

/-- Row of `pools(pool PK, cap, reward, required_roles[], level, current,
start)`. -/
structure PoolRow where
  pool : String
  cap : Int
  reward : String
  required_roles : List Nat
  level : Int
  current : Int
  start : Int
deriving DecidableEq, Repr

/-- The relational store of the economy engine (schema of spec section 6).
`users` maps user id to points, `gangs` maps gang name to control. -/
structure DB where
  users : List (Nat × Int)
  gangs : List (String × Int)
  gang_members : List GangMember
  user_items : List ItemRow
  gang_items : List ItemRow
  user_inventory : List UserInvRow
  gang_inventory : List GangInvRow
  territories : List TerritoryRow
  pools : List PoolRow
deriving DecidableEq, Repr

/-- `SELECT v FROM t WHERE key = k` on a scalar table (users / gangs). -/
def lookupVal {κ : Type} [DecidableEq κ] (l : List (κ × Int)) (k : κ) :
    Option Int :=
  (l.find? (fun r => r.1 = k)).map (fun r => r.2)

/-- `UPDATE t SET v = v + d WHERE key = k` on a scalar table. -/
def setAdd {κ : Type} [DecidableEq κ] (l : List (κ × Int)) (k : κ) (d : Int) :
    List (κ × Int) :=
  l.map (fun r => if r.1 = k then (r.1, r.2 + d) else r)

/-- Truthiness of `fetchval "SELECT TRUE FROM gang_members WHERE user_id = $1"`:
whether the user is in a gang. -/
def memberOfGang (db : DB) (user_id : Nat) : Bool :=
  db.gang_members.any (fun m => m.user_id = user_id)

/-- Truthiness of
`fetchval "SELECT (leader OR leadership) FROM gang_members WHERE user_id = $1"`:
`None` (no row) and `False` are both falsy. -/
def isLeadership (db : DB) (user_id : Nat) : Bool :=
  ((db.gang_members.find? (fun m => m.user_id = user_id)).map
    (fun m => m.leader || m.leadership)).getD false

/-- Gang of a member, `SELECT gang FROM gang_members WHERE user_id = $1`. -/
def gangOf (db : DB) (user_id : Nat) : Option String :=
  (db.gang_members.find? (fun m => m.user_id = user_id)).map (fun m => m.gang)

namespace UserInv

/-- `SELECT ... FROM user_inventory WHERE user_id = $1 AND item = $2`. -/
def findInv (inv : List UserInvRow) (u i : Nat) : Option UserInvRow :=
  inv.find? (fun r => r.user_id = u ∧ r.item = i)

/-- `DELETE FROM user_inventory WHERE user_id = $1 AND item = $2`. -/
def delInv (inv : List UserInvRow) (u i : Nat) : List UserInvRow :=
  inv.filter (fun r => ¬ (r.user_id = u ∧ r.item = i))

/-- `UPDATE user_inventory SET quantity = quantity - 1 WHERE ...`. -/
def decInv (inv : List UserInvRow) (u i : Nat) : List UserInvRow :=
  inv.map (fun r =>
    if r.user_id = u ∧ r.item = i then
      { r with quantity := r.quantity - 1 } else r)

/-- Increment branch of the upsert: `DO UPDATE SET quantity =
(SELECT quantity + 1 FROM user_inventory WHERE user_id = $1 AND item = $2)`. -/
def incInv (inv : List UserInvRow) (u i : Nat) : List UserInvRow :=
  inv.map (fun r =>
    if r.user_id = u ∧ r.item = i then
      { r with quantity := r.quantity + 1 } else r)

/-- `INSERT INTO user_inventory (user_id, item, quantity) VALUES ($1, $2, 1)
ON CONFLICT(user_id, item) DO UPDATE SET quantity = (SELECT quantity + 1 ...)`:
insert the row with quantity 1, or increment the existing row. -/
def upsertInv (inv : List UserInvRow) (u i : Nat) : List UserInvRow :=
  if inv.any (fun r => r.user_id = u ∧ r.item = i) then incInv inv u i
  else inv ++ [⟨u, i, 1⟩]

/-- Observed quantity of an (owner, item) pair: the quantity of its inventory
row, 0 when no row exists. -/
def qty (inv : List UserInvRow) (u i : Nat) : Nat :=
  ((findInv inv u i).map (fun r => r.quantity)).getD 0

/-- Total number of units of one item summed across all owners. -/
def itemTotal (inv : List UserInvRow) (i : Nat) : Nat :=
  ((inv.filter (fun r => r.item = i)).map (fun r => r.quantity)).sum

/-- Well-formedness from the primary key PK(user_id,item): no two rows share
an (owner, item) key. -/
def keysNodup (inv : List UserInvRow) : Prop :=
  (inv.map (fun r => (r.user_id, r.item))).Nodup

instance (inv : List UserInvRow) : Decidable (keysNodup inv) := by
  unfold keysNodup; infer_instance

/-- Invariant "No inventory row with quantity = 0". -/
def qtyPos (inv : List UserInvRow) : Prop :=
  ∀ r ∈ inv, 1 ≤ r.quantity

instance (inv : List UserInvRow) : Decidable (qtyPos inv) := by
  unfold qtyPos; infer_instance

end UserInv

namespace GangInv

/-- `SELECT ... FROM gang_inventory WHERE gang = $1 AND item = $2`. -/
def findInv (inv : List GangInvRow) (g : String) (i : Nat) :
    Option GangInvRow :=
  inv.find? (fun r => r.gang = g ∧ r.item = i)

/-- `DELETE FROM gang_inventory WHERE gang = $1 AND item = $2`. -/
def delInv (inv : List GangInvRow) (g : String) (i : Nat) : List GangInvRow :=
  inv.filter (fun r => ¬ (r.gang = g ∧ r.item = i))

/-- `UPDATE gang_inventory SET quantity = quantity - 1 WHERE ...`. -/
def decInv (inv : List GangInvRow) (g : String) (i : Nat) : List GangInvRow :=
  inv.map (fun r =>
    if r.gang = g ∧ r.item = i then
      { r with quantity := r.quantity - 1 } else r)

/-- Increment branch of the gang-inventory upsert. -/
def incInv (inv : List GangInvRow) (g : String) (i : Nat) : List GangInvRow :=
  inv.map (fun r =>
    if r.gang = g ∧ r.item = i then
      { r with quantity := r.quantity + 1 } else r)

/-- Upsert of `gang_items.try_buy_item`: insert with quantity 1 or increment
the conflicting row. -/
def upsertInv (inv : List GangInvRow) (g : String) (i : Nat) :
    List GangInvRow :=
  if inv.any (fun r => r.gang = g ∧ r.item = i) then incInv inv g i
  else inv ++ [⟨g, i, 1⟩]

/-- Observed quantity of a (gang, item) pair. -/
def qty (inv : List GangInvRow) (g : String) (i : Nat) : Nat :=
  ((findInv inv g i).map (fun r => r.quantity)).getD 0

end GangInv

/-- ItemUseInfo row fetched by `try_use_item`:
`SELECT id, name, quantity, value, benefit, cost FROM user_items INNER JOIN
user_inventory ui on user_items.id = ui.item WHERE user_id = $1 AND name = $2`. -/
structure ItemUse where
  id : Nat
  name : String
  quantity : Nat
  value : Nat
  benefit : Benefits
  cost : Nat
deriving DecidableEq, Repr

namespace UserItems

/-- Buying a user item, `user_items.try_buy_item`.  Requires gang membership;
looks the item up by name; note that the balance check and the debit both use
the item's `value` column, not `cost`.  A missing `users` row makes
`fetchval` return `None` and the comparison `points < item["value"]` raise
`TypeError`. -/
def try_buy_item (db : DB) (user_id : Nat) (item_name : String) :
    Except PyErr (DB × PyVal) :=
  if ¬ memberOfGang db user_id then
    .ok (db, .str "You must be in a gang to buy items.")
  else
    match db.user_items.find? (fun it => it.name = item_name) with
    | none =>
        .ok (db, .str ("The item `" ++ item_name ++
          "` you requested doesn\x27t exist."))
    | some item =>
        match lookupVal db.users user_id with
        | none => .error .typeError
        | some points =>
          if points < (item.value : Int) then
            .ok (db, .str ("You don\x27t have enough rep to buy that. (Have: "
              ++ toString points ++ ", Need: " ++ toString item.value ++ ")"))
          else
            let inv := UserInv.upsertInv db.user_inventory user_id item.id
            let users := setAdd db.users user_id (-(item.value : Int))
            .ok ({ db with user_inventory := inv, users := users },
              match lookupVal users user_id with
              | some p => .int p
              | none => .noneVal)

/-- Join used by `try_sell_item`: `SELECT id, quantity, cost FROM user_items
INNER JOIN user_inventory ui on user_items.id = ui.item WHERE user_id = $1 AND
name = $2`. -/
def sellFetch (db : DB) (user_id : Nat) (item_name : String) :
    Option (Nat × Nat × Nat) :=
  match db.user_items.find? (fun it => it.name = item_name) with
  | none => none
  | some it =>
      (UserInv.findInv db.user_inventory user_id it.id).map
        (fun r => (it.id, r.quantity, it.cost))

/-- Selling a user item, `user_items.try_sell_item`: the row is deleted when
its quantity is 1 and decremented otherwise, and the seller is credited
`cost // 10` points. -/
def try_sell_item (db : DB) (user_id : Nat) (item_name : String) :
    DB × PyVal :=
  match sellFetch db user_id item_name with
  | none =>
      (db, .str ("You don\x27t have any `" ++ item_name ++
        "` to sell, or it doesn\x27t exist."))
  | some (itemId, quantity, cost) =>
      let inv :=
        if quantity = 1 then UserInv.delInv db.user_inventory user_id itemId
        else UserInv.decInv db.user_inventory user_id itemId
      let users := setAdd db.users user_id ((cost / 10 : Nat) : Int)
      ({ db with user_inventory := inv, users := users },
        match lookupVal users user_id with
        | some p => .int p
        | none => .noneVal)

/-- Join used by `try_gift_item`: `SELECT id, quantity FROM user_items INNER
JOIN user_inventory ui on user_items.id = ui.item WHERE user_id = $1 AND
name = $2`. -/
def giftFetch (db : DB) (user_id : Nat) (item_name : String) :
    Option (Nat × Nat) :=
  match db.user_items.find? (fun it => it.name = item_name) with
  | none => none
  | some it =>
      (UserInv.findInv db.user_inventory user_id it.id).map
        (fun r => (it.id, r.quantity))

/-- Gifting a user item, `user_items.try_gift_item`: requires gang
leadership; removes one unit from the sender (deleting the row at quantity 1)
and upserts one unit onto the target. -/
def try_gift_item (db : DB) (user_id : Nat) (item_name : String)
    (target : Nat) : DB × String :=
  if ¬ isLeadership db user_id then
    (db, "You are not in the leadership of a gang, you cannot gift items.")
  else
    match giftFetch db user_id item_name with
    | none =>
        (db, "You don\x27t have any `" ++ item_name ++
          "` to gift, or it doesn\x27t exist.")
    | some (itemId, quantity) =>
        let inv1 :=
          if quantity = 1 then UserInv.delInv db.user_inventory user_id itemId
          else UserInv.decInv db.user_inventory user_id itemId
        let inv2 := UserInv.upsertInv inv1 target itemId
        ({ db with user_inventory := inv2 },
          "You gifted `" ++ item_name ++ "` to <@" ++ toString target ++ ">.")

/-- Modelled from the spec: `item_utils.consume_item` is not under `src/`
(only its callers are).  Spec section 4.2 says consumable use removes one
unit of the item from inventory, and section 3 says rows with quantity 0 are
deleted, never persisted as zero. -/
def consume_item (inv : List UserInvRow) (item quantity user : Nat) :
    List UserInvRow :=
  if quantity = 1 then UserInv.delInv inv user item
  else UserInv.decInv inv user item

/-- Modelled from the spec: `item_utils.check_defensive_item` is not under
`src/`.  Spec section 4.2 says the defense path "requires the actor's gang to
currently hold a defendable territory (external lookup; absence is a failure,
not silent no-op)"; the caller reads `id` and `defense` off the returned row. -/
def check_defensive_item (db : DB) (user : Nat) : Sum String TerritoryRow :=
  match gangOf db user with
  | none => Sum.inl "You are not in a gang."
  | some g =>
      match db.territories.find? (fun t => t.gang = g) with
      | none => Sum.inl "Your gang does not hold a territory to defend."
      | some t => Sum.inr t

/-- Modelled from the spec: `item_utils.check_offensive_item` is not under
`src/`.  Spec section 4.2 says the offense path mirrors the defense check but
"requires an active offensive campaign context"; the caller reads `id` and
`attack` off the returned row. -/
def check_offensive_item (db : DB) (user : Nat) : Sum String TerritoryRow :=
  match gangOf db user with
  | none => Sum.inl "You are not in a gang."
  | some g =>
      match db.territories.find? (fun t => t.gang = g) with
      | none => Sum.inl "Your gang has no active offensive campaign."
      | some t => Sum.inr t

/-- `UPDATE territories SET defense = defense + $1 WHERE id = $2`. -/
def bumpDefense (ts : List TerritoryRow) (tid : Nat) (v : Nat) :
    List TerritoryRow :=
  ts.map (fun t => if t.id = tid then { t with defense := t.defense + v } else t)

/-- `UPDATE territories SET attack = attack + $1 WHERE id = $2`. -/
def bumpAttack (ts : List TerritoryRow) (tid : Nat) (v : Nat) :
    List TerritoryRow :=
  ts.map (fun t => if t.id = tid then { t with attack := t.attack + v } else t)

/-- Using a currency item, `user_items.use_currency_item`: credits `value`
points and consumes the item. -/
def use_currency_item (db : DB) (item : ItemUse) (user : Nat) :
    Except PyErr (DB × String) :=
  let users := setAdd db.users user (item.value : Int)
  let inv := consume_item db.user_inventory item.id item.quantity user
  let ret := match lookupVal users user with
    | some p => toString p
    | none => "None"
  .ok ({ db with users := users, user_inventory := inv },
    "You used `" ++ item.name ++ "` and gained " ++ toString item.value ++
      " rep. You now have " ++ ret ++ " rep.")

/-- Using a defensive item, `user_items.use_defensive_item`.  The reusable
variant guards on `points < item["cost"]` but then debits `item["value"]`
from the user's points; the consumable variant consumes one unit instead.
Both credit `value` to the territory's defense. -/
def use_defensive_item (db : DB) (item : ItemUse) (user : Nat)
    (reusable : Bool) : Except PyErr (DB × String) :=
  match check_defensive_item db user with
  | Sum.inl s => .ok (db, s)
  | Sum.inr ret =>
    if reusable then
      match lookupVal db.users user with
      | none => .error .typeError
      | some pts =>
        if pts < (item.cost : Int) then
          .ok (db, "You do not have enough rep to use `" ++ item.name ++
            "`. You need " ++ toString item.cost ++ " rep, and have " ++
            toString pts ++ ".")
        else
          let users := setAdd db.users user (-(item.value : Int))
          let remaining := match lookupVal users user with
            | some p => toString p
            | none => "None"
          let ts := bumpDefense db.territories ret.id item.value
          .ok ({ db with users := users, territories := ts },
            "You used `" ++ item.name ++ "` and gained " ++
              toString item.value ++ " defense. Your gang now has " ++
              toString (ret.defense + item.value) ++
              " defense. You now have " ++ remaining ++ " rep.")
    else
      let inv := consume_item db.user_inventory item.id item.quantity user
      let ts := bumpDefense db.territories ret.id item.value
      .ok ({ db with user_inventory := inv, territories := ts },
        "You used `" ++ item.name ++ "` and gained " ++ toString item.value ++
          " defense. Your gang now has " ++
          toString (ret.defense + item.value) ++ " defense.")

/-- Using an offensive item, `user_items.use_offensive_item`: mirrors the
defensive variant on the territory's attack column. -/
def use_offensive_item (db : DB) (item : ItemUse) (user : Nat)
    (reusable : Bool) : Except PyErr (DB × String) :=
  match check_offensive_item db user with
  | Sum.inl s => .ok (db, s)
  | Sum.inr ret =>
    if reusable then
      match lookupVal db.users user with
      | none => .error .typeError
      | some pts =>
        if pts < (item.cost : Int) then
          .ok (db, "You do not have enough rep to use `" ++ item.name ++
            "`. You need " ++ toString item.cost ++ " rep, and have " ++
            toString pts ++ ".")
        else
          let users := setAdd db.users user (-(item.value : Int))
          let remaining := match lookupVal users user with
            | some p => toString p
            | none => "None"
          let ts := bumpAttack db.territories ret.id item.value
          .ok ({ db with users := users, territories := ts },
            "You used `" ++ item.name ++ "` and gained " ++
              toString item.value ++ " attack. Your gang now has " ++
              toString (ret.attack + item.value) ++
              " attack. You now have " ++ remaining ++ " rep.")
    else
      let inv := consume_item db.user_inventory item.id item.quantity user
      let ts := bumpAttack db.territories ret.id item.value
      .ok ({ db with user_inventory := inv, territories := ts },
        "You used `" ++ item.name ++ "` and gained " ++ toString item.value ++
          " attack. Your gang now has " ++
          toString (ret.attack + item.value) ++ " attack.")

/-- Row fetch of `try_use_item`. -/
def useFetch (db : DB) (user_id : Nat) (item_name : String) :
    Option ItemUse :=
  match db.user_items.find? (fun it => it.name = item_name) with
  | none => none
  | some it =>
      (UserInv.findInv db.user_inventory user_id it.id).map
        (fun r => ⟨it.id, it.name, r.quantity, it.value, it.benefit, it.cost⟩)

/-- Using a user item, `user_items.try_use_item`.  The Python `match` on
`item["benefit"]` resolves its value patterns in source order at run time;
the first case is `Benefits.currency | Benefits.currency_consumable`, and the
`Benefits` enum of `enums.py` has no member named `currency`, so resolving
the pattern raises `AttributeError` before any branch can be taken.  The
remaining cases are embedded faithfully after their own attribute
resolutions. -/
def try_use_item (db : DB) (user_id : Nat) (item_name : String) :
    Except PyErr (DB × String) :=
  match useFetch db user_id item_name with
  | none =>
      .ok (db, "You don\x27t have any `" ++ item_name ++
        "` to use, or it doesn\x27t exist.")
  | some item =>
      match Benefits.attr "currency" with
      | none => .error (.attributeError "currency")
      | some c1 =>
        match Benefits.attr "currency_consumable" with
        | none => .error (.attributeError "currency_consumable")
        | some c2 =>
          if item.benefit = c1 ∨ item.benefit = c2 then
            use_currency_item db item user_id
          else match Benefits.attr "defense" with
          | none => .error (.attributeError "defense")
          | some d1 =>
            if item.benefit = d1 then use_defensive_item db item user_id true
            else match Benefits.attr "defense_consumable" with
            | none => .error (.attributeError "defense_consumable")
            | some d2 =>
              if item.benefit = d2 then
                use_defensive_item db item user_id false
              else match Benefits.attr "offense" with
              | none => .error (.attributeError "offense")
              | some o1 =>
                if item.benefit = o1 then
                  use_offensive_item db item user_id true
                else match Benefits.attr "offense_consumable" with
                | none => .error (.attributeError "offense_consumable")
                | some o2 =>
                  if item.benefit = o2 then
                    use_offensive_item db item user_id false
                  else match Benefits.attr "other" with
                  | none => .error (.attributeError "other")
                  | some oth =>
                    if item.benefit = oth then
                      .ok (db, "You cannot use `" ++ item.name ++
                        "`. It is not a usable item.")
                    else .error .assertionError

end UserItems

namespace GangItems

/-- Buying a gang item, `gang_items.try_buy_item`.  Requires gang leadership;
the control check and the debit both use the item's `cost` column.  A missing
gang row makes `fetchval` return `None` and `control < item["cost"]` raise
`TypeError`. -/
def try_buy_item (db : DB) (user_id : Nat) (item_name : String) :
    Except PyErr (DB × PyVal) :=
  if ¬ isLeadership db user_id then
    .ok (db, .str
      "You are not in the leadership of a gang, you cannot buy gang items.")
  else
    match db.gang_items.find? (fun it => it.name = item_name) with
    | none =>
        .ok (db, .str ("The item `" ++ item_name ++
          "` you requested doesn\x27t exist."))
    | some item =>
        match gangOf db user_id with
        | none => .error .typeError
        | some g =>
          match lookupVal db.gangs g with
          | none => .error .typeError
          | some control =>
            if control < (item.cost : Int) then
              .ok (db, .str
                ("Your gang doesn\x27t have enough control to buy that. (Have: "
                  ++ toString control ++ ", Need: " ++ toString item.cost ++
                  ")"))
            else
              let inv := GangInv.upsertInv db.gang_inventory g item.id
              let gangs := setAdd db.gangs g (-(item.cost : Int))
              .ok ({ db with gang_inventory := inv, gangs := gangs },
                match lookupVal gangs g with
                | some c => .int c
                | none => .noneVal)

/-- Join used by `gang_items.try_sell_item`: `SELECT id, quantity, cost FROM
gang_items INNER JOIN gang_inventory gi ON id = gi.item WHERE name = $1 AND
gang = $2`. -/
def sellFetch (db : DB) (g : String) (item_name : String) :
    Option (Nat × Nat × Nat) :=
  match db.gang_items.find? (fun it => it.name = item_name) with
  | none => none
  | some it =>
      (GangInv.findInv db.gang_inventory g it.id).map
        (fun r => (it.id, r.quantity, it.cost))

/-- Selling a gang item, `gang_items.try_sell_item`: requires leadership; the
row is deleted when its quantity is 1 and decremented otherwise, and the gang
is credited `cost // 10` control. -/
def try_sell_item (db : DB) (user_id : Nat) (item_name : String) :
    DB × PyVal :=
  if ¬ isLeadership db user_id then
    (db, .str
      "You are not in the leadership of a gang, you cannot sell gang items.")
  else
    match gangOf db user_id with
    | none =>
        (db, .str ("Your gang doesn\x27t have any `" ++ item_name ++
          "` to sell, or it doesn\x27t exist."))
    | some g =>
      match sellFetch db g item_name with
      | none =>
          (db, .str ("Your gang doesn\x27t have any `" ++ item_name ++
            "` to sell, or it doesn\x27t exist."))
      | some (itemId, quantity, cost) =>
          let inv :=
            if quantity = 1 then GangInv.delInv db.gang_inventory g itemId
            else GangInv.decInv db.gang_inventory g itemId
          let gangs := setAdd db.gangs g ((cost / 10 : Nat) : Int)
          ({ db with gang_inventory := inv, gangs := gangs },
            match lookupVal gangs g with
            | some c => .int c
            | none => .noneVal)

end GangItems

namespace RepAdmin

/-- Arguments of the `pools edit` command, `reputation_admin.edit_pool`.
`name` and `reward` default to the `MISSING` sentinel (here `none`);
`capacity`, `current` and `start` default to `0` with a `Range[int, 0]`
boundary check, and `level` defaults to `1` with a `Range[int, 1]` check, so
for those the code cannot distinguish an omitted field from an explicitly
supplied default. -/
structure EditArgs where
  pool : String
  name : Option String
  capacity : Int
  reward : Option String
  level : Int
  current : Int
  start : Int
deriving DecidableEq, Repr

/-- `UPDATE pools SET ... WHERE pool = key` applied to every matching row. -/
def updateWhere (ps : List PoolRow) (key : String) (f : PoolRow → PoolRow) :
    List PoolRow :=
  ps.map (fun r => if r.pool = key then f r else r)

/-- Editing a pool, `reputation_admin.edit_pool`.  The updates are applied
one column at a time, each with `WHERE pool = $2` bound to the ORIGINAL
`pool` argument, so after a rename to a different name the remaining updates
match no row.  The final re-fetch uses the `name` argument: when `name` was
omitted this passes the `MISSING` sentinel as the key, no row matches, and
the `assert isinstance(_pool, asyncpg.Record)` raises `AssertionError`,
rolling the whole transaction back.  No comparison of `current` against
`cap` is made anywhere. -/
def edit_pool (db : DB) (a : EditArgs) : Except PyErr (DB × String) :=
  if a.level ≠ 1 ∧ (a.current = 0 ∨ a.start = 0) then
    .ok (db,
      "Error: Current and start must be greater than 0 if level is 1.")
  else if (match a.name with
      | some n => decide (n.length > 32) | none => false) then
    .ok (db, "Error: Name must be 32 characters or less.")
  else if (match a.reward with
      | some r => decide (r.length > 100) | none => false) then
    .ok (db, "Error: Reward must be 100 characters or less.")
  else
    match db.pools.find? (fun r => r.pool = a.pool) with
    | none =>
        .ok (db, "Error: Pool `" ++ a.pool ++
          "` not found. Use the autocomplete feature to find the pool.")
    | some _ =>
        let ps1 := match a.name with
          | some n => updateWhere db.pools a.pool (fun r => { r with pool := n })
          | none => db.pools
        let ps2 := if a.capacity ≠ 0 then
            updateWhere ps1 a.pool (fun r => { r with cap := a.capacity })
          else ps1
        let ps3 := match a.reward with
          | some rw => updateWhere ps2 a.pool (fun r => { r with reward := rw })
          | none => ps2
        let ps4 := if a.level ≠ 1 then
            updateWhere ps3 a.pool (fun r => { r with level := a.level })
          else ps3
        let ps5 := if a.current ≠ 0 then
            updateWhere ps4 a.pool (fun r => { r with current := a.current })
          else ps4
        let ps6 := if a.start ≠ 0 then
            updateWhere ps5 a.pool (fun r => { r with start := a.start })
          else ps5
        match a.name with
        | none => .error .assertionError
        | some n =>
          match ps6.find? (fun r => r.pool = n) with
          | none => .error .assertionError
          | some p =>
            .ok ({ db with pools := ps6 },
              "Pool " ++ p.pool ++ " (formerly " ++ a.pool ++ ") edited!")

/-- Toggling a role on a pool, `reputation_admin.pool_role`.  Postgres
`array_remove` removes every occurrence of the element and `array_append`
appends it at the end. -/
def pool_role (db : DB) (pool : String) (role : Nat) : DB × String :=
  match db.pools.find? (fun r => r.pool = pool) with
  | none => (db, "Error: Pool `" ++ pool ++ "` not found.")
  | some p =>
      if role ∈ p.required_roles then
        let ps := updateWhere db.pools pool (fun r =>
          { r with required_roles := r.required_roles.filter (fun x => x != role) })
        ({ db with pools := ps }, "Role removed from pool `" ++ pool ++ "`.")
      else
        let ps := updateWhere db.pools pool (fun r =>
          { r with required_roles := r.required_roles ++ [role] })
        ({ db with pools := ps }, "Role added to pool `" ++ pool ++ "`.")

/-- Round-half-to-even on an exact rational, the tie rule of IEEE-754 binary
arithmetic and of CPython's float-to-decimal conversions. -/
def roundHalfEven (q : ℚ) : ℤ :=
  let f := ⌊q⌋
  if q - f < 1 / 2 then f
  else if 1 / 2 < q - f then f + 1
  else if f % 2 = 0 then f else f + 1

/-- Round-to-nearest, ties-to-even at 53 significant bits: the exact rational
value of the IEEE-754 binary64 double nearest to `q`.  Python's int true
division `current / cap` returns exactly the nearest double of the exact
quotient, i.e. `RN53` of it (the exponent range of binary64 aside, which the
pool ratios stay far inside). -/
def RN53 (q : ℚ) : ℚ :=
  if q = 0 then 0
  else if 0 < q then
    (roundHalfEven (q / 2 ^ (Int.log 2 q - 52)) : ℚ) * 2 ^ (Int.log 2 q - 52)
  else
    -((roundHalfEven (-q / 2 ^ (Int.log 2 (-q) - 52)) : ℚ) *
      2 ^ (Int.log 2 (-q) - 52))

/-- Value of `round(current / cap, 2)` in `check_pool`, on binary64 doubles
as CPython computes it: the true division `current / cap` is the nearest
double `RN53` of the exact ratio, and `round(x, 2)` rounds the exact value
of the double `x` half-to-even at two decimal places (`_Py_dg_dtoa`) and
returns the double nearest the resulting two-decimal value
(`_Py_dg_strtod`). -/
def round2 (current cap : Int) : ℚ :=
  RN53 (((roundHalfEven (100 * RN53 ((current : ℚ) / (cap : ℚ)))) : ℚ) / 100)

/-- Status derivation of `reputation_admin.check_pool`.  The code maps the
qualitative statuses onto presence strings: "dnd" is the spec's "critical",
"idle" is "building", "streaming" is "near-complete" and "online" is
"complete"; the initial value "offline" survives when no branch fires.
The float literals `0.34` and `0.67` of the source denote the binary64
doubles nearest those decimals, `RN53 (34 / 100)` and `RN53 (67 / 100)`;
the comparison with the int `1` is exact.  `cap = 0` raises
`ZeroDivisionError` in `current / cap`. -/
def check_pool_status (current cap : Int) : Except PyErr String :=
  if cap = 0 then .error .zeroDivisionError
  else
    let completed := round2 current cap
    .ok (if completed < RN53 (34 / 100) then "dnd"
      else if RN53 (34 / 100) ≤ completed ∧ completed < RN53 (67 / 100) then
        "idle"
      else if RN53 (67 / 100) ≤ completed ∧ completed < 1 then "streaming"
      else if completed = 1 then "online"
      else "offline")

end RepAdmin


section Lemmas

theorem lookupVal_cons {κ : Type} [DecidableEq κ] (x : κ × Int)
    (t : List (κ × Int)) (k : κ) :
    lookupVal (x :: t) k = if x.1 = k then some x.2 else lookupVal t k := by
  by_cases h : x.1 = k
  · rw [if_pos h]
    unfold lookupVal
    rw [List.find?_cons_of_pos _ (by simpa using h)]
    rfl
  · rw [if_neg h]
    unfold lookupVal
    rw [List.find?_cons_of_neg _ (by simpa using h)]

theorem setAdd_cons {κ : Type} [DecidableEq κ] (x : κ × Int)
    (t : List (κ × Int)) (k : κ) (d : Int) :
    setAdd (x :: t) k d =
      (if x.1 = k then (x.1, x.2 + d) else x) :: setAdd t k d := by
  unfold setAdd
  rw [List.map_cons]

theorem lookupVal_setAdd_self {κ : Type} [DecidableEq κ]
    (l : List (κ × Int)) (k : κ) (d : Int) :
    lookupVal (setAdd l k d) k = (lookupVal l k).map (fun v => v + d) := by
  induction l with
  | nil => rfl
  | cons x t ih =>
    rw [setAdd_cons]
    by_cases h : x.1 = k
    · rw [if_pos h]
      rw [lookupVal_cons, lookupVal_cons]
      simp [h]
    · rw [if_neg h]
      rw [lookupVal_cons, lookupVal_cons, if_neg h, if_neg h, ih]

theorem lookupVal_setAdd_ne {κ : Type} [DecidableEq κ]
    (l : List (κ × Int)) (k k' : κ) (d : Int) (h : k' ≠ k) :
    lookupVal (setAdd l k d) k' = lookupVal l k' := by
  induction l with
  | nil => rfl
  | cons x t ih =>
    rw [setAdd_cons]
    by_cases hx : x.1 = k
    · have hx' : ¬ x.1 = k' := by
        rw [hx]; exact fun e => h e.symm
      rw [if_pos hx, lookupVal_cons, lookupVal_cons, if_neg hx', ih]
      simp [hx']
    · rw [if_neg hx, lookupVal_cons, lookupVal_cons, ih]

namespace UserInv

theorem findInv_cons (r : UserInvRow) (t : List UserInvRow) (u i : Nat) :
    findInv (r :: t) u i =
      if r.user_id = u ∧ r.item = i then some r else findInv t u i := by
  by_cases h : r.user_id = u ∧ r.item = i
  · rw [if_pos h]
    exact List.find?_cons_of_pos _ (by simpa using h)
  · rw [if_neg h]
    exact List.find?_cons_of_neg _ (by simpa using h)

theorem delInv_cons (r : UserInvRow) (t : List UserInvRow) (u i : Nat) :
    delInv (r :: t) u i =
      if r.user_id = u ∧ r.item = i then delInv t u i
      else r :: delInv t u i := by
  by_cases h : r.user_id = u ∧ r.item = i <;>
    simp [delInv, List.filter_cons, h]

theorem decInv_cons (r : UserInvRow) (t : List UserInvRow) (u i : Nat) :
    decInv (r :: t) u i =
      (if r.user_id = u ∧ r.item = i then
        { r with quantity := r.quantity - 1 } else r) :: decInv t u i := by
  by_cases h : r.user_id = u ∧ r.item = i <;> simp [decInv, h]

theorem incInv_cons (r : UserInvRow) (t : List UserInvRow) (u i : Nat) :
    incInv (r :: t) u i =
      (if r.user_id = u ∧ r.item = i then
        { r with quantity := r.quantity + 1 } else r) :: incInv t u i := by
  by_cases h : r.user_id = u ∧ r.item = i <;> simp [incInv, h]

theorem findInv_inc_self (inv : List UserInvRow) (u i : Nat) :
    findInv (incInv inv u i) u i =
      (findInv inv u i).map
        (fun r => { r with quantity := r.quantity + 1 }) := by
  induction inv with
  | nil => rfl
  | cons r t ih =>
    rw [incInv_cons]
    by_cases h : r.user_id = u ∧ r.item = i
    · rw [if_pos h, findInv_cons, findInv_cons, if_pos h]
      simp [h]
    · rw [if_neg h, findInv_cons, findInv_cons, if_neg h, if_neg h, ih]

theorem findInv_dec_self (inv : List UserInvRow) (u i : Nat) :
    findInv (decInv inv u i) u i =
      (findInv inv u i).map
        (fun r => { r with quantity := r.quantity - 1 }) := by
  induction inv with
  | nil => rfl
  | cons r t ih =>
    rw [decInv_cons]
    by_cases h : r.user_id = u ∧ r.item = i
    · rw [if_pos h, findInv_cons, findInv_cons, if_pos h]
      simp [h]
    · rw [if_neg h, findInv_cons, findInv_cons, if_neg h, if_neg h, ih]

theorem findInv_del_self (inv : List UserInvRow) (u i : Nat) :
    findInv (delInv inv u i) u i = none := by
  induction inv with
  | nil => rfl
  | cons r t ih =>
    rw [delInv_cons]
    by_cases h : r.user_id = u ∧ r.item = i
    · rw [if_pos h]; exact ih
    · rw [if_neg h, findInv_cons, if_neg h]; exact ih

theorem not_any_findInv (inv : List UserInvRow) (u i : Nat)
    (h : inv.any (fun r => r.user_id = u ∧ r.item = i) = false) :
    findInv inv u i = none := by
  rw [findInv, List.find?_eq_none]
  intro x hx
  have := (List.any_eq_false.mp h) x hx
  simpa using this

theorem findInv_append (l₁ l₂ : List UserInvRow) (u i : Nat) :
    findInv (l₁ ++ l₂) u i = (findInv l₁ u i).or (findInv l₂ u i) := by
  induction l₁ with
  | nil => rfl
  | cons r t ih =>
    rw [List.cons_append, findInv_cons, findInv_cons]
    by_cases h : r.user_id = u ∧ r.item = i
    · rw [if_pos h, if_pos h]; rfl
    · rw [if_neg h, if_neg h, ih]

theorem findInv_upsert_self (inv : List UserInvRow) (u i : Nat) :
    findInv (upsertInv inv u i) u i = some ⟨u, i, qty inv u i + 1⟩ := by
  unfold upsertInv
  by_cases h : inv.any (fun r => r.user_id = u ∧ r.item = i)
  · rw [if_pos h, findInv_inc_self]
    have hs : (findInv inv u i).isSome := by
      rw [findInv, List.find?_isSome]
      simpa using List.any_eq_true.mp h
    obtain ⟨r, hr⟩ := Option.isSome_iff_exists.mp hs
    have hp : r.user_id = u ∧ r.item = i := by
      have := List.find?_some hr
      simpa using this
    obtain ⟨a, b, c⟩ := r
    simp only at hp
    obtain ⟨hp1, hp2⟩ := hp
    subst hp1
    subst hp2
    rw [hr]
    simp [qty, hr]
  · rw [if_neg h, findInv_append,
      not_any_findInv inv u i (by simpa using h)]
    have h0 : qty inv u i = 0 := by
      rw [qty, not_any_findInv inv u i (by simpa using h)]
      rfl
    rw [h0, Option.none_or, findInv_cons]
    simp

theorem qty_upsert_self (inv : List UserInvRow) (u i : Nat) :
    qty (upsertInv inv u i) u i = qty inv u i + 1 := by
  rw [qty, findInv_upsert_self]
  rfl

theorem findInv_inc_ne (inv : List UserInvRow) (u i u' i' : Nat)
    (h : ¬ (u' = u ∧ i' = i)) :
    findInv (incInv inv u i) u' i' = findInv inv u' i' := by
  induction inv with
  | nil => rfl
  | cons r t ih =>
    rw [incInv_cons]
    by_cases hp : r.user_id = u ∧ r.item = i
    · have hq : ¬ (r.user_id = u' ∧ r.item = i') := by
        rintro ⟨a, b⟩
        exact h ⟨a.symm.trans hp.1, b.symm.trans hp.2⟩
      rw [if_pos hp, findInv_cons, findInv_cons, if_neg hq, ih]
      simp [hq]
    · rw [if_neg hp, findInv_cons, findInv_cons, ih]

theorem findInv_dec_ne (inv : List UserInvRow) (u i u' i' : Nat)
    (h : ¬ (u' = u ∧ i' = i)) :
    findInv (decInv inv u i) u' i' = findInv inv u' i' := by
  induction inv with
  | nil => rfl
  | cons r t ih =>
    rw [decInv_cons]
    by_cases hp : r.user_id = u ∧ r.item = i
    · have hq : ¬ (r.user_id = u' ∧ r.item = i') := by
        rintro ⟨a, b⟩
        exact h ⟨a.symm.trans hp.1, b.symm.trans hp.2⟩
      rw [if_pos hp, findInv_cons, findInv_cons, if_neg hq, ih]
      simp [hq]
    · rw [if_neg hp, findInv_cons, findInv_cons, ih]

theorem findInv_del_ne (inv : List UserInvRow) (u i u' i' : Nat)
    (h : ¬ (u' = u ∧ i' = i)) :
    findInv (delInv inv u i) u' i' = findInv inv u' i' := by
  induction inv with
  | nil => rfl
  | cons r t ih =>
    rw [delInv_cons]
    by_cases hp : r.user_id = u ∧ r.item = i
    · have hq : ¬ (r.user_id = u' ∧ r.item = i') := by
        rintro ⟨a, b⟩
        exact h ⟨a.symm.trans hp.1, b.symm.trans hp.2⟩
      rw [if_pos hp, findInv_cons, if_neg hq, ih]
    · rw [if_neg hp, findInv_cons, findInv_cons, ih]

theorem findInv_upsert_ne (inv : List UserInvRow) (u i u' i' : Nat)
    (h : ¬ (u' = u ∧ i' = i)) :
    findInv (upsertInv inv u i) u' i' = findInv inv u' i' := by
  unfold upsertInv
  by_cases hin : inv.any (fun r => r.user_id = u ∧ r.item = i)
  · rw [if_pos hin, findInv_inc_ne inv u i u' i' h]
  · rw [if_neg hin, findInv_append, findInv_cons]
    have : ¬ ((⟨u, i, 1⟩ : UserInvRow).user_id = u' ∧
        (⟨u, i, 1⟩ : UserInvRow).item = i') := by
      rintro ⟨a, b⟩
      exact h ⟨a.symm, b.symm⟩
    rw [if_neg this]
    cases hf : findInv inv u' i' <;> rfl

theorem itemTotal_cons (r : UserInvRow) (t : List UserInvRow) (i : Nat) :
    itemTotal (r :: t) i =
      (if r.item = i then r.quantity else 0) + itemTotal t i := by
  by_cases h : r.item = i <;> simp [itemTotal, List.filter_cons, h]

theorem keysNodup_cons (r : UserInvRow) (t : List UserInvRow) :
    keysNodup (r :: t) ↔
      (∀ s ∈ t, ¬ (s.user_id = r.user_id ∧ s.item = r.item)) ∧
        keysNodup t := by
  simp only [keysNodup, List.map_cons, List.nodup_cons, List.mem_map]
  constructor
  · rintro ⟨h1, h2⟩
    refine ⟨?_, h2⟩
    rintro s hs ⟨a, b⟩
    exact h1 ⟨s, hs, by rw [a, b]⟩
  · rintro ⟨h1, h2⟩
    refine ⟨?_, h2⟩
    rintro ⟨s, hs, he⟩
    have := Prod.mk.injEq _ _ _ _ ▸ he
    exact h1 s hs ⟨congrArg Prod.fst he, congrArg Prod.snd he⟩

theorem delInv_eq_self (inv : List UserInvRow) (u i : Nat)
    (h : ∀ s ∈ inv, ¬ (s.user_id = u ∧ s.item = i)) :
    delInv inv u i = inv := by
  induction inv with
  | nil => rfl
  | cons r t ih =>
    rw [delInv_cons, if_neg (h r (by simp)),
      ih (fun s hs => h s (by simp [hs]))]

theorem decInv_eq_self (inv : List UserInvRow) (u i : Nat)
    (h : ∀ s ∈ inv, ¬ (s.user_id = u ∧ s.item = i)) :
    decInv inv u i = inv := by
  induction inv with
  | nil => rfl
  | cons r t ih =>
    rw [decInv_cons, if_neg (h r (by simp)),
      ih (fun s hs => h s (by simp [hs]))]

theorem incInv_eq_self (inv : List UserInvRow) (u i : Nat)
    (h : ∀ s ∈ inv, ¬ (s.user_id = u ∧ s.item = i)) :
    incInv inv u i = inv := by
  induction inv with
  | nil => rfl
  | cons r t ih =>
    rw [incInv_cons, if_neg (h r (by simp)),
      ih (fun s hs => h s (by simp [hs]))]

theorem itemTotal_del (inv : List UserInvRow) (u i : Nat) (r : UserInvRow)
    (hk : keysNodup inv) (h : findInv inv u i = some r) :
    itemTotal inv i = itemTotal (delInv inv u i) i + r.quantity := by
  induction inv with
  | nil => simp [findInv] at h
  | cons s t ih =>
    rw [findInv_cons] at h
    rw [keysNodup_cons] at hk
    by_cases hs : s.user_id = u ∧ s.item = i
    · rw [if_pos hs] at h
      injection h with h
      subst h
      have hno : ∀ x ∈ t, ¬ (x.user_id = u ∧ x.item = i) := by
        intro x hx hc
        exact hk.1 x hx ⟨hc.1.trans hs.1.symm, hc.2.trans hs.2.symm⟩
      rw [delInv_cons, if_pos hs, delInv_eq_self t u i hno,
        itemTotal_cons, if_pos hs.2]
      omega
    · rw [if_neg hs] at h
      have h2 := ih hk.2 h
      rw [delInv_cons, if_neg hs, itemTotal_cons, itemTotal_cons]
      omega

theorem itemTotal_dec (inv : List UserInvRow) (u i : Nat) (r : UserInvRow)
    (hk : keysNodup inv) (h : findInv inv u i = some r)
    (hq : 1 ≤ r.quantity) :
    itemTotal inv i = itemTotal (decInv inv u i) i + 1 := by
  induction inv with
  | nil => simp [findInv] at h
  | cons s t ih =>
    rw [findInv_cons] at h
    rw [keysNodup_cons] at hk
    by_cases hs : s.user_id = u ∧ s.item = i
    · rw [if_pos hs] at h
      injection h with h
      have hno : ∀ x ∈ t, ¬ (x.user_id = u ∧ x.item = i) := by
        intro x hx hc
        exact hk.1 x hx ⟨hc.1.trans hs.1.symm, hc.2.trans hs.2.symm⟩
      rw [decInv_cons, if_pos hs, decInv_eq_self t u i hno,
        itemTotal_cons, if_pos hs.2, itemTotal_cons]
      have hsq : 1 ≤ s.quantity := by rw [h]; exact hq
      simp only [if_pos hs.2]
      omega
    · rw [if_neg hs] at h
      have h2 := ih hk.2 h
      rw [decInv_cons, if_neg hs, itemTotal_cons, itemTotal_cons]
      omega

theorem itemTotal_inc (inv : List UserInvRow) (u i : Nat) (r : UserInvRow)
    (hk : keysNodup inv) (h : findInv inv u i = some r) :
    itemTotal (incInv inv u i) i = itemTotal inv i + 1 := by
  induction inv with
  | nil => simp [findInv] at h
  | cons s t ih =>
    rw [findInv_cons] at h
    rw [keysNodup_cons] at hk
    by_cases hs : s.user_id = u ∧ s.item = i
    · rw [if_pos hs] at h
      have hno : ∀ x ∈ t, ¬ (x.user_id = u ∧ x.item = i) := by
        intro x hx hc
        exact hk.1 x hx ⟨hc.1.trans hs.1.symm, hc.2.trans hs.2.symm⟩
      rw [incInv_cons, if_pos hs, incInv_eq_self t u i hno,
        itemTotal_cons, if_pos hs.2, itemTotal_cons]
      simp only [if_pos hs.2]
      omega
    · rw [if_neg hs] at h
      have h2 := ih hk.2 h
      rw [incInv_cons, if_neg hs, itemTotal_cons, itemTotal_cons]
      omega

theorem itemTotal_append (l1 l2 : List UserInvRow) (i : Nat) :
    itemTotal (l1 ++ l2) i = itemTotal l1 i + itemTotal l2 i := by
  simp [itemTotal, List.filter_append]

theorem itemTotal_upsert (inv : List UserInvRow) (u i : Nat)
    (hk : keysNodup inv) :
    itemTotal (upsertInv inv u i) i = itemTotal inv i + 1 := by
  unfold upsertInv
  by_cases h : inv.any (fun r => r.user_id = u ∧ r.item = i)
  · rw [if_pos h]
    have hs : (findInv inv u i).isSome := by
      rw [findInv, List.find?_isSome]
      simpa using List.any_eq_true.mp h
    obtain ⟨r, hr⟩ := Option.isSome_iff_exists.mp hs
    exact itemTotal_inc inv u i r hk hr
  · rw [if_neg h, itemTotal_append]
    simp [itemTotal]

end UserInv

namespace GangInv

theorem gang_findInv_cons (r : GangInvRow) (t : List GangInvRow) (g : String)
    (i : Nat) :
    findInv (r :: t) g i =
      if r.gang = g ∧ r.item = i then some r else findInv t g i := by
  by_cases h : r.gang = g ∧ r.item = i
  · rw [if_pos h]
    exact List.find?_cons_of_pos _ (by simpa using h)
  · rw [if_neg h]
    exact List.find?_cons_of_neg _ (by simpa using h)

theorem gang_incInv_cons (r : GangInvRow) (t : List GangInvRow) (g : String)
    (i : Nat) :
    incInv (r :: t) g i =
      (if r.gang = g ∧ r.item = i then
        { r with quantity := r.quantity + 1 } else r) :: incInv t g i := by
  by_cases h : r.gang = g ∧ r.item = i <;> simp [incInv, h]

theorem gang_findInv_inc_self (inv : List GangInvRow) (g : String) (i : Nat) :
    findInv (incInv inv g i) g i =
      (findInv inv g i).map
        (fun r => { r with quantity := r.quantity + 1 }) := by
  induction inv with
  | nil => rfl
  | cons r t ih =>
    rw [gang_incInv_cons]
    by_cases h : r.gang = g ∧ r.item = i
    · rw [if_pos h, gang_findInv_cons, gang_findInv_cons, if_pos h]
      simp [h]
    · rw [if_neg h, gang_findInv_cons, gang_findInv_cons, if_neg h, if_neg h, ih]

theorem gang_not_any_findInv (inv : List GangInvRow) (g : String) (i : Nat)
    (h : inv.any (fun r => r.gang = g ∧ r.item = i) = false) :
    findInv inv g i = none := by
  rw [findInv, List.find?_eq_none]
  intro x hx
  have := (List.any_eq_false.mp h) x hx
  simpa using this

theorem gang_findInv_append (l1 l2 : List GangInvRow) (g : String) (i : Nat) :
    findInv (l1 ++ l2) g i = (findInv l1 g i).or (findInv l2 g i) := by
  induction l1 with
  | nil => rfl
  | cons r t ih =>
    rw [List.cons_append, gang_findInv_cons, gang_findInv_cons]
    by_cases h : r.gang = g ∧ r.item = i
    · rw [if_pos h, if_pos h]
      rfl
    · rw [if_neg h, if_neg h, ih]

theorem gang_findInv_upsert_self (inv : List GangInvRow) (g : String) (i : Nat) :
    findInv (upsertInv inv g i) g i = some ⟨g, i, qty inv g i + 1⟩ := by
  unfold upsertInv
  by_cases h : inv.any (fun r => r.gang = g ∧ r.item = i)
  · rw [if_pos h, gang_findInv_inc_self]
    have hs : (findInv inv g i).isSome := by
      rw [findInv, List.find?_isSome]
      simpa using List.any_eq_true.mp h
    obtain ⟨r, hr⟩ := Option.isSome_iff_exists.mp hs
    have hp : r.gang = g ∧ r.item = i := by
      have := List.find?_some hr
      simpa using this
    obtain ⟨a, b, c⟩ := r
    simp only at hp
    obtain ⟨hp1, hp2⟩ := hp
    subst hp1
    subst hp2
    rw [hr]
    simp [qty, hr]
  · rw [if_neg h, gang_findInv_append,
      gang_not_any_findInv inv g i (by simpa using h)]
    have h0 : qty inv g i = 0 := by
      rw [qty, gang_not_any_findInv inv g i (by simpa using h)]
      rfl
    rw [h0, Option.none_or, gang_findInv_cons]
    simp

theorem gang_qty_upsert_self (inv : List GangInvRow) (g : String) (i : Nat) :
    qty (upsertInv inv g i) g i = qty inv g i + 1 := by
  rw [qty, gang_findInv_upsert_self]
  rfl

theorem gang_delInv_cons (r : GangInvRow) (t : List GangInvRow) (g : String)
    (i : Nat) :
    delInv (r :: t) g i =
      if r.gang = g ∧ r.item = i then delInv t g i
      else r :: delInv t g i := by
  by_cases h : r.gang = g ∧ r.item = i <;>
    simp [delInv, List.filter_cons, h]

theorem gang_decInv_cons (r : GangInvRow) (t : List GangInvRow) (g : String)
    (i : Nat) :
    decInv (r :: t) g i =
      (if r.gang = g ∧ r.item = i then
        { r with quantity := r.quantity - 1 } else r) :: decInv t g i := by
  by_cases h : r.gang = g ∧ r.item = i <;> simp [decInv, h]

theorem gang_findInv_del_self (inv : List GangInvRow) (g : String) (i : Nat) :
    findInv (delInv inv g i) g i = none := by
  induction inv with
  | nil => rfl
  | cons r t ih =>
    rw [gang_delInv_cons]
    by_cases h : r.gang = g ∧ r.item = i
    · rw [if_pos h]
      exact ih
    · rw [if_neg h, gang_findInv_cons, if_neg h]
      exact ih

theorem gang_findInv_dec_self (inv : List GangInvRow) (g : String) (i : Nat) :
    findInv (decInv inv g i) g i =
      (findInv inv g i).map
        (fun r => { r with quantity := r.quantity - 1 }) := by
  induction inv with
  | nil => rfl
  | cons r t ih =>
    rw [gang_decInv_cons]
    by_cases h : r.gang = g ∧ r.item = i
    · rw [if_pos h, gang_findInv_cons, gang_findInv_cons, if_pos h]
      simp [h]
    · rw [if_neg h, gang_findInv_cons, gang_findInv_cons, if_neg h, if_neg h,
        ih]

end GangInv

namespace RepAdmin

theorem updateWhere_cons (r : PoolRow) (t : List PoolRow) (key : String)
    (f : PoolRow → PoolRow) :
    updateWhere (r :: t) key f =
      (if r.pool = key then f r else r) :: updateWhere t key f := by
  unfold updateWhere
  rw [List.map_cons]

theorem findPool_cons (r : PoolRow) (t : List PoolRow) (key : String) :
    (r :: t).find? (fun s => s.pool = key) =
      if r.pool = key then some r else t.find? (fun s => s.pool = key) := by
  by_cases h : r.pool = key
  · rw [if_pos h]
    exact List.find?_cons_of_pos _ (by simpa using h)
  · rw [if_neg h]
    exact List.find?_cons_of_neg _ (by simpa using h)

theorem find?_updateWhere (ps : List PoolRow) (key : String)
    (f : PoolRow → PoolRow) (hf : ∀ r, r.pool = key → (f r).pool = key) :
    (updateWhere ps key f).find? (fun s => s.pool = key) =
      (ps.find? (fun s => s.pool = key)).map f := by
  induction ps with
  | nil => rfl
  | cons r t ih =>
    rw [updateWhere_cons]
    by_cases h : r.pool = key
    · rw [if_pos h, findPool_cons, findPool_cons, if_pos h,
        if_pos (hf r h)]
      rfl
    · rw [if_neg h, findPool_cons, findPool_cons, if_neg h, if_neg h, ih]

end RepAdmin

end Lemmas

/-! Claim theorems. -/

/-- Example database for claim C10: user 1 is a gang member and owns three
units of the item `rock`, whose benefit kind is `other`. -/
def c10db : DB :=
  { users := [(1, 20)], gangs := [],
    gang_members := [⟨1, "g", false, false⟩],
    user_items := [⟨1, "rock", 10, 5, .other, "a rock"⟩], gang_items := [],
    user_inventory := [⟨1, 1, 3⟩], gang_inventory := [], territories := [],
    pools := [] }

/-- Resolving the attribute `currency` on the `Benefits` enum fails: the enum
defines `control`, not `currency`. -/
theorem benefits_attr_currency : Benefits.attr "currency" = none := rfl

/-- C10: for every `try_use_item` call where the actor owns the named item,
the dispatch on the item's benefit kind raises `AttributeError` before any
branch is taken, because the first `case` pattern references
`Benefits.currency`, which the `Benefits` enum does not define; hence no such
call returns any of the documented success or failure strings. -/
theorem c10_use_item_always_attribute_error (db : DB) (user_id : Nat)
    (item_name : String) (info : ItemUse)
    (h : UserItems.useFetch db user_id item_name = some info) :
    UserItems.try_use_item db user_id item_name =
      Except.error (PyErr.attributeError "currency") ∧
    ∀ out : DB × String,
      UserItems.try_use_item db user_id item_name ≠ Except.ok out := by
  have hmain : UserItems.try_use_item db user_id item_name =
      Except.error (PyErr.attributeError "currency") := by
    rw [UserItems.try_use_item, h, benefits_attr_currency]
  refine ⟨hmain, ?_⟩
  intro out hout
  rw [hmain] at hout
  exact Except.noConfusion hout

/-- C10 witness: on `c10db` the actor owns `rock`, and using it produces the
`AttributeError`. -/
theorem c10_use_item_always_attribute_error_witness :
    UserItems.useFetch c10db 1 "rock" =
      some ⟨1, "rock", 3, 5, Benefits.other, 10⟩ ∧
    UserItems.try_use_item c10db 1 "rock" =
      Except.error (PyErr.attributeError "currency") :=
  ⟨rfl, (c10_use_item_always_attribute_error c10db 1 "rock"
    ⟨1, "rock", 3, 5, Benefits.other, 10⟩ rfl).1⟩

/-- C6: the claim says `use_item` on an owned item of benefit kind `other`
always fails with the user-displayable "not usable" message.  On `c10db` the
owned item `rock` has benefit `other`, yet `try_use_item` raises
`AttributeError` (the dispatch never reaches the `Benefits.other` case), so
no user-displayable string is returned at all.  The state is left unchanged
only because the transaction rolls back. -/
theorem c6_other_item_use_raises_not_rejected :
    (UserItems.useFetch c10db 1 "rock").map (fun r => r.benefit) =
      some Benefits.other ∧
    UserItems.try_use_item c10db 1 "rock" =
      Except.error (PyErr.attributeError "currency") ∧
    ∀ db2 : DB,
      UserItems.try_use_item c10db 1 "rock" ≠
        Except.ok (db2, "You cannot use `rock`. It is not a usable item.") :=
  ⟨rfl, rfl, fun _ h => Except.noConfusion h⟩

/-- Example database for claim C8: user 1 has 20 points, is in gang `g`, and
gang `g` holds territory 5 with defense 7. -/
def c8db : DB :=
  { users := [(1, 20)], gangs := [],
    gang_members := [⟨1, "g", false, false⟩],
    user_items := [], gang_items := [],
    user_inventory := [], gang_inventory := [],
    territories := [⟨5, "g", 0, 7⟩], pools := [] }

/-- The reusable defense item of claim C8: cost 10, value 50. -/
def c8item : ItemUse := ⟨1, "shield", 1, 50, Benefits.defense, 10⟩

/-- Database state after the C8 call: user 1 is at -30 points and territory 5
is at defense 57. -/
def c8db2 : DB :=
  { users := [(1, -30)], gangs := [],
    gang_members := [⟨1, "g", false, false⟩],
    user_items := [], gang_items := [],
    user_inventory := [], gang_inventory := [],
    territories := [⟨5, "g", 0, 57⟩], pools := [] }

/-- C8: the claim says a reusable defense item charges exactly `cost` points.
The code guards on `cost` (20 points pass the guard against cost 10) but then
debits `value` (50), leaving the user at -30 points: the amount charged is
`value`, not `cost`, and the points balance can go negative.  Defense rises
by exactly `value` and the inventory is untouched, as claimed. -/
theorem c8_reusable_defense_charges_value_not_cost :
    lookupVal c8db.users 1 = some 20 ∧
    c8item.cost = 10 ∧
    c8item.value = 50 ∧
    UserItems.use_defensive_item c8db c8item 1 true =
      Except.ok (c8db2,
        "You used `shield` and gained 50 defense. Your gang now has 57" ++
          " defense. You now have -30 rep.") ∧
    lookupVal c8db2.users 1 = some (-30) ∧
    c8db2.territories.map TerritoryRow.defense = [57] ∧
    c8db2.user_inventory = c8db.user_inventory :=
  ⟨rfl, rfl, rfl, rfl, rfl, rfl, rfl⟩

/-- Example database for claim C9: a single pool `a` with capacity 10. -/
def c9db : DB :=
  { users := [], gangs := [], gang_members := [], user_items := [],
    gang_items := [], user_inventory := [], gang_inventory := [],
    territories := [], pools := [⟨"a", 10, "r", [], 1, 0, 0⟩] }

/-- C9: the claim says every supplied field of a pool edit is stored and the
edit succeeds.  Editing pool `a` with a new name `b` and capacity 50 reports
success but leaves the capacity at 10, because the capacity update runs with
`WHERE pool = 'a'` after the row was already renamed to `b`.  And the same
edit without a new name raises `AssertionError` (the re-fetch passes the
`MISSING` sentinel as the key and finds no row), rolling the transaction
back, so the capacity update is lost entirely. -/
theorem c9_edit_pool_drops_updates :
    RepAdmin.edit_pool c9db ⟨"a", some "b", 50, none, 1, 0, 0⟩ =
      Except.ok ({ c9db with pools := [⟨"b", 10, "r", [], 1, 0, 0⟩] },
        "Pool b (formerly a) edited!") ∧
    RepAdmin.edit_pool c9db ⟨"a", none, 50, none, 1, 0, 0⟩ =
      Except.error PyErr.assertionError :=
  ⟨rfl, rfl⟩

/-- Example database for claim C3: a single pool `p` with capacity 100 and
current fill 50. -/
def c3db : DB :=
  { users := [], gangs := [], gang_members := [], user_items := [],
    gang_items := [], user_inventory := [], gang_inventory := [],
    territories := [], pools := [⟨"p", 100, "r", [], 1, 50, 0⟩] }

/-- C3 counterexample: an edit that sets `current = 150` on a pool with
`cap = 100` commits successfully and stores 150 — the stored value is
neither rejected nor clamped, and `current ≤ cap` is violated after the
committed transaction. -/
theorem c3_counterexample_current_exceeds_cap :
    RepAdmin.edit_pool c3db ⟨"p", some "p", 0, none, 1, 150, 0⟩ =
      Except.ok ({ c3db with pools := [⟨"p", 100, "r", [], 1, 150, 0⟩] },
        "Pool p (formerly p) edited!") ∧
    ((100 : Int) < 150) :=
  ⟨rfl, by decide⟩

/-- C3 amended: `edit_pool` performs no comparison of the new `current`
against `cap`.  Whenever an edit of `current` to a nonzero `X` commits (which
requires the `name` argument to be supplied and equal to the existing pool
name, since the per-column updates target the original name), the stored
`current` is exactly `X`, whatever `cap` is — so `current ≤ cap` is not
enforced by the edit path. -/
theorem c3_amended_edit_stores_current_unchecked (db : DB) (nm : String)
    (p : PoolRow) (X : Int)
    (hfind : db.pools.find? (fun r => r.pool = nm) = some p)
    (hX : X ≠ 0) (hlen : nm.length ≤ 32) :
    ∃ db2 : DB,
      RepAdmin.edit_pool db ⟨nm, some nm, 0, none, 1, X, 0⟩ =
        Except.ok (db2,
          "Pool " ++ nm ++ " (formerly " ++ nm ++ ") edited!") ∧
      db2.pools.find? (fun r => r.pool = nm) =
        some { p with current := X } := by
  have hp : p.pool = nm := by simpa using List.find?_some hfind
  have hren : ({ p with pool := nm } : PoolRow) = p := by rw [← hp]
  have hlen2 : ¬ nm.length > 32 := by omega
  have hfind6 :
      (RepAdmin.updateWhere (RepAdmin.updateWhere db.pools nm (fun r => { r with pool := nm })) nm (fun r => { r with current := X })).find? (fun r => r.pool = nm) =
        some { p with current := X } := by
    rw [RepAdmin.find?_updateWhere _ nm
        (fun r => { r with current := X }) (fun r hr => hr),
      RepAdmin.find?_updateWhere _ nm
        (fun r => { r with pool := nm }) (fun r _ => rfl), hfind]
    simp [hren]
  refine ⟨{ db with pools := (RepAdmin.updateWhere (RepAdmin.updateWhere db.pools nm (fun r => { r with pool := nm })) nm (fun r => { r with current := X })) }, ?_, hfind6⟩
  unfold RepAdmin.edit_pool
  rw [if_neg (by simp), if_neg (by simpa using hlen2), if_neg (by simp),
    hfind]
  simp only [hX, hfind6, hp, ne_eq, ite_true, ite_false]
  simp [hfind6, hp]

/-- C3 witness: on `c3db` the edit to `current = 150` commits and stores a
pool with `current = 150` over `cap = 100`. -/
theorem c3_amended_edit_stores_current_unchecked_witness :
    ∃ db2 : DB,
      RepAdmin.edit_pool c3db ⟨"p", some "p", 0, none, 1, 150, 0⟩ =
        Except.ok (db2, "Pool p (formerly p) edited!") ∧
      db2.pools.find? (fun r => r.pool = "p") =
        some ⟨"p", 100, "r", [], 1, 150, 0⟩ :=
  c3_amended_edit_stores_current_unchecked c3db "p"
    ⟨"p", 100, "r", [], 1, 50, 0⟩ 150 rfl (by decide) (by decide)

/-- Unfolding lemma for `pool_role` when the pool exists and the role is
present: the role is removed from every occurrence. -/
theorem pool_role_found_mem (db : DB) (pool : String) (role : Nat)
    (p : PoolRow) (hfind : db.pools.find? (fun r => r.pool = pool) = some p)
    (hm : role ∈ p.required_roles) :
    RepAdmin.pool_role db pool role =
      ({ db with pools := RepAdmin.updateWhere db.pools pool (fun r => { r with required_roles := r.required_roles.filter (fun x => x != role) }) }, "Role removed from pool `" ++ pool ++ "`.") := by
  unfold RepAdmin.pool_role
  simp only [hfind, hm, if_true]

/-- Unfolding lemma for `pool_role` when the pool exists and the role is
absent: the role is appended. -/
theorem pool_role_found_not_mem (db : DB) (pool : String) (role : Nat)
    (p : PoolRow) (hfind : db.pools.find? (fun r => r.pool = pool) = some p)
    (hm : role ∉ p.required_roles) :
    RepAdmin.pool_role db pool role =
      ({ db with pools := RepAdmin.updateWhere db.pools pool (fun r => { r with required_roles := r.required_roles ++ [role] }) }, "Role added to pool `" ++ pool ++ "`.") := by
  unfold RepAdmin.pool_role
  simp only [hfind]
  rw [if_neg hm]

/-- C5: `pool_role` toggles a role: it is removed when present and appended
when absent; the resulting list stays duplicate-free, membership of every
other role is unchanged, and applying the toggle twice restores the original
`required_roles` as a set. -/
theorem c5_toggle_role (db : DB) (pool : String) (role : Nat) (p : PoolRow)
    (hfind : db.pools.find? (fun r => r.pool = pool) = some p)
    (hnd : p.required_roles.Nodup) :
    ∃ roles1 roles2 : List Nat,
      ((RepAdmin.pool_role db pool role).1).pools.find?
          (fun r => r.pool = pool) =
        some { p with required_roles := roles1 } ∧
      (role ∈ roles1 ↔ role ∉ p.required_roles) ∧
      (∀ x : Nat, x ≠ role → (x ∈ roles1 ↔ x ∈ p.required_roles)) ∧
      roles1.Nodup ∧
      ((RepAdmin.pool_role (RepAdmin.pool_role db pool role).1
          pool role).1).pools.find? (fun r => r.pool = pool) =
        some { p with required_roles := roles2 } ∧
      roles2.toFinset = p.required_roles.toFinset := by
  by_cases hm : role ∈ p.required_roles
  · -- the role is present: it is removed, then re-appended by the second
    -- toggle
    have hfind1 : (RepAdmin.pool_role db pool role).1.pools.find?
        (fun r => r.pool = pool) =
        some { p with required_roles := p.required_roles.filter (fun x => x != role) } := by
      rw [pool_role_found_mem db pool role p hfind hm]
      exact (RepAdmin.find?_updateWhere db.pools pool
        (fun r => { r with required_roles := r.required_roles.filter (fun x => x != role) })
        (fun r hr => hr)).trans (by rw [hfind]; rfl)
    have hm1 : role ∉ List.filter (fun x => x != role) p.required_roles := by
      simp
    have hfind2 : (RepAdmin.pool_role (RepAdmin.pool_role db pool role).1
        pool role).1.pools.find? (fun r => r.pool = pool) =
        some { p with required_roles := p.required_roles.filter (fun x => x != role) ++ [role] } := by
      rw [pool_role_found_not_mem (RepAdmin.pool_role db pool role).1 pool
        role _ hfind1 (by simp)]
      exact (RepAdmin.find?_updateWhere _ pool
        (fun r => { r with required_roles := r.required_roles ++ [role] })
        (fun r hr => hr)).trans (by rw [hfind1]; rfl)
    refine ⟨p.required_roles.filter (fun x => x != role),
      p.required_roles.filter (fun x => x != role) ++ [role],
      hfind1, by simp [hm], ?_, hnd.filter _, hfind2, ?_⟩
    · intro x hx
      simp [List.mem_filter, hx]
    · ext a
      simp only [List.mem_toFinset, List.mem_append, List.mem_filter,
        List.mem_singleton, bne_iff_ne, ne_eq, decide_eq_true_eq]
      by_cases ha : a = role
      · subst ha
        simp [hm]
      · simp [ha]
  · -- the role is absent: it is appended, then removed again by the second
    -- toggle
    have hfind1 : (RepAdmin.pool_role db pool role).1.pools.find?
        (fun r => r.pool = pool) =
        some { p with required_roles := p.required_roles ++ [role] } := by
      rw [pool_role_found_not_mem db pool role p hfind hm]
      exact (RepAdmin.find?_updateWhere db.pools pool
        (fun r => { r with required_roles := r.required_roles ++ [role] })
        (fun r hr => hr)).trans (by rw [hfind]; rfl)
    have hm1 : role ∈ p.required_roles ++ [role] := by simp
    have hfind2 : (RepAdmin.pool_role (RepAdmin.pool_role db pool role).1
        pool role).1.pools.find? (fun r => r.pool = pool) =
        some { p with required_roles := (p.required_roles ++ [role]).filter (fun x => x != role) } := by
      rw [pool_role_found_mem (RepAdmin.pool_role db pool role).1 pool
        role _ hfind1 (by simp)]
      exact (RepAdmin.find?_updateWhere _ pool
        (fun r => { r with required_roles := r.required_roles.filter (fun x => x != role) })
        (fun r hr => hr)).trans (by rw [hfind1]; rfl)
    have hfix : (p.required_roles ++ [role]).filter (fun x => x != role) =
        p.required_roles := by
      rw [List.filter_append]
      have h1 : p.required_roles.filter (fun x => x != role) =
          p.required_roles := by
        rw [List.filter_eq_self]
        intro a ha
        simp only [bne_iff_ne, ne_eq, decide_eq_true_eq]
        intro e
        exact hm (e ▸ ha)
      have h2 : ([role].filter (fun x => x != role)) = ([] : List Nat) := by
        simp
      rw [h1, h2, List.append_nil]
    refine ⟨p.required_roles ++ [role],
      (p.required_roles ++ [role]).filter (fun x => x != role),
      hfind1, by simp [hm], ?_, ?_, hfind2, by rw [hfix]⟩
    · intro x hx
      simp [hx]
    · simp [List.nodup_append, hnd, hm]

/-- Example database for claim C5: pool `p` whitelists roles 3 and 7. -/
def c5db : DB :=
  { users := [], gangs := [], gang_members := [], user_items := [],
    gang_items := [], user_inventory := [], gang_inventory := [],
    territories := [], pools := [⟨"p", 100, "r", [3, 7], 1, 0, 0⟩] }

/-- C5 witness: toggling role 7 on pool `p` of `c5db`. -/
theorem c5_toggle_role_witness :
    ∃ roles1 roles2 : List Nat,
      ((RepAdmin.pool_role c5db "p" 7).1).pools.find?
          (fun r => r.pool = "p") =
        some { pool := "p", cap := 100, reward := "r", required_roles := roles1, level := 1, current := 0, start := 0 } ∧
      (7 ∈ roles1 ↔ 7 ∉ [3, 7]) ∧
      (∀ x : Nat, x ≠ 7 → (x ∈ roles1 ↔ x ∈ [3, 7])) ∧
      roles1.Nodup ∧
      ((RepAdmin.pool_role (RepAdmin.pool_role c5db "p" 7).1
          "p" 7).1).pools.find? (fun r => r.pool = "p") =
        some { pool := "p", cap := 100, reward := "r", required_roles := roles2, level := 1, current := 0, start := 0 } ∧
      roles2.toFinset = ([3, 7] : List Nat).toFinset :=
  c5_toggle_role c5db "p" 7 ⟨"p", 100, "r", [3, 7], 1, 0, 0⟩ rfl (by decide)

/-- Example database for claim C1: user 1 (a gang member) has 50 points; the
user item `sword` has cost 100 but value 5. -/
def c1db : DB :=
  { users := [(1, 50)], gangs := [],
    gang_members := [⟨1, "g", false, false⟩],
    user_items := [⟨1, "sword", 100, 5, .other, "d"⟩], gang_items := [],
    user_inventory := [], gang_inventory := [], territories := [],
    pools := [] }

/-- Database state after user 1 buys `sword` in `c1db`: 5 points were
debited, not the cost of 100. -/
def c1db2 : DB :=
  { users := [(1, 45)], gangs := [],
    gang_members := [⟨1, "g", false, false⟩],
    user_items := [⟨1, "sword", 100, 5, .other, "d"⟩], gang_items := [],
    user_inventory := [⟨1, 1, 1⟩], gang_inventory := [], territories := [],
    pools := [] }

/-- C1 counterexample: the claim says a user-item purchase fails with the
insufficient-balance message iff points < cost.  User 1 has 50 points, the
item costs 100, yet the purchase SUCCEEDS (because `try_buy_item` compares
and debits the item's `value` column, 5): points 50 < cost 100 but no
failure occurs, and the balance drops by 5, not by the cost. -/
theorem c1_counterexample_user_buy_ignores_cost :
    lookupVal c1db.users 1 = some 50 ∧
    c1db.user_items.map ItemRow.cost = [100] ∧
    ((50 : Int) < 100) ∧
    UserItems.try_buy_item c1db 1 "sword" = Except.ok (c1db2, PyVal.int 45) ∧
    UserInv.qty c1db2.user_inventory 1 1 = 1 :=
  ⟨rfl, rfl, by decide, rfl, rfl⟩

/-- C1 amended: for user items the price is the item's `value` column: the
purchase fails with the insufficient-rep message iff points < value, and on
success the inventory quantity rises by 1 and the balance drops by exactly
`value`, never going negative.  For gang items the claim holds as stated
with `cost`: failure iff control < cost, else inventory +1 and control
drops by exactly `cost`, never going negative. -/
theorem c1_amended_buy_item :
    (∀ (db : DB) (uid : Nat) (nm : String) (it : ItemRow) (pts : Int),
      memberOfGang db uid = true →
      db.user_items.find? (fun r => r.name = nm) = some it →
      lookupVal db.users uid = some pts →
      (pts < (it.value : Int) →
        UserItems.try_buy_item db uid nm = Except.ok (db, PyVal.str ("You don\x27t have enough rep to buy that. (Have: " ++ toString pts ++ ", Need: " ++ toString it.value ++ ")"))) ∧
      ((it.value : Int) ≤ pts →
        ∃ db2 : DB,
          UserItems.try_buy_item db uid nm =
            Except.ok (db2, PyVal.int (pts - it.value)) ∧
          lookupVal db2.users uid = some (pts - it.value) ∧
          0 ≤ pts - it.value ∧
          UserInv.qty db2.user_inventory uid it.id =
            UserInv.qty db.user_inventory uid it.id + 1)) ∧
    (∀ (db : DB) (uid : Nat) (nm g : String) (it : ItemRow) (c : Int),
      isLeadership db uid = true →
      gangOf db uid = some g →
      db.gang_items.find? (fun r => r.name = nm) = some it →
      lookupVal db.gangs g = some c →
      (c < (it.cost : Int) →
        GangItems.try_buy_item db uid nm = Except.ok (db, PyVal.str ("Your gang doesn\x27t have enough control to buy that. (Have: " ++ toString c ++ ", Need: " ++ toString it.cost ++ ")"))) ∧
      ((it.cost : Int) ≤ c →
        ∃ db2 : DB,
          GangItems.try_buy_item db uid nm =
            Except.ok (db2, PyVal.int (c - it.cost)) ∧
          lookupVal db2.gangs g = some (c - it.cost) ∧
          0 ≤ c - it.cost ∧
          GangInv.qty db2.gang_inventory g it.id =
            GangInv.qty db.gang_inventory g it.id + 1)) := by
  constructor
  · intro db uid nm it pts hmem hfind hpts
    constructor
    · intro hlt
      simp only [UserItems.try_buy_item, hmem, hfind, hpts]
      rw [if_neg (by simp), if_pos hlt]
    · intro hge
      have husers : lookupVal (setAdd db.users uid (-(it.value : Int))) uid =
          some (pts - it.value) := by
        rw [lookupVal_setAdd_self, hpts]
        simp [sub_eq_add_neg]
      refine ⟨{ db with user_inventory := UserInv.upsertInv db.user_inventory uid it.id, users := setAdd db.users uid (-(it.value : Int)) }, ?_, husers, by omega, ?_⟩
      · simp only [UserItems.try_buy_item, hmem, hfind, hpts]
        rw [if_neg (by simp), if_neg (by omega), husers]
      · exact UserInv.qty_upsert_self db.user_inventory uid it.id
  · intro db uid nm g it c hlead hgang hfind hctl
    constructor
    · intro hlt
      simp only [GangItems.try_buy_item, hlead, hgang, hfind, hctl]
      rw [if_neg (by simp), if_pos hlt]
    · intro hge
      have hgangs : lookupVal (setAdd db.gangs g (-(it.cost : Int))) g =
          some (c - it.cost) := by
        rw [lookupVal_setAdd_self, hctl]
        simp [sub_eq_add_neg]
      refine ⟨{ db with gang_inventory := GangInv.upsertInv db.gang_inventory g it.id, gangs := setAdd db.gangs g (-(it.cost : Int)) }, ?_, hgangs, by omega, ?_⟩
      · simp only [GangItems.try_buy_item, hlead, hgang, hfind, hctl]
        rw [if_neg (by simp), if_neg (by omega), hgangs]
      · exact GangInv.gang_qty_upsert_self db.gang_inventory g it.id

/-- C1 witness: in `c1db`, value 5 ≤ points 50, so the user purchase
succeeds, debiting 5. -/
theorem c1_amended_buy_item_witness :
    ∃ db2 : DB,
      UserItems.try_buy_item c1db 1 "sword" =
        Except.ok (db2, PyVal.int (50 - 5)) ∧
      lookupVal db2.users 1 = some (50 - 5) ∧
      ((0 : Int) ≤ 50 - 5) ∧
      UserInv.qty db2.user_inventory 1 1 =
        UserInv.qty c1db.user_inventory 1 1 + 1 :=
  (c1_amended_buy_item.1 c1db 1 "sword" ⟨1, "sword", 100, 5, .other, "d"⟩ 50
    rfl rfl rfl).2 (by decide)

/-- Example database for claim C2, identical in shape to the C1 one: user 1
(a gang member) has 50 points; the user item `sword` has cost 100, value 5. -/
def c2db : DB :=
  { users := [(1, 50)], gangs := [],
    gang_members := [⟨1, "g", false, false⟩],
    user_items := [⟨1, "sword", 100, 5, .other, "d"⟩], gang_items := [],
    user_inventory := [], gang_inventory := [], territories := [],
    pools := [] }

/-- State of `c2db` after buying `sword` (5 points debited). -/
def c2mid : DB :=
  { users := [(1, 45)], gangs := [],
    gang_members := [⟨1, "g", false, false⟩],
    user_items := [⟨1, "sword", 100, 5, .other, "d"⟩], gang_items := [],
    user_inventory := [⟨1, 1, 1⟩], gang_inventory := [], territories := [],
    pools := [] }

/-- State of `c2mid` after selling `sword` back (100 // 10 = 10 credited). -/
def c2end : DB :=
  { users := [(1, 55)], gangs := [],
    gang_members := [⟨1, "g", false, false⟩],
    user_items := [⟨1, "sword", 100, 5, .other, "d"⟩], gang_items := [],
    user_inventory := [], gang_inventory := [], territories := [],
    pools := [] }

/-- C2 counterexample: buying `sword` (cost C = 100) and immediately selling
it INCREASES user 1's points from 50 to 55, even though C // 10 = 10 < 100 —
the claimed sink property fails for user items, because the buy debits the
item's `value` (5) while the sell credits `cost // 10` (10). -/
theorem c2_counterexample_user_buy_sell_gains :
    UserItems.try_buy_item c2db 1 "sword" = Except.ok (c2mid, PyVal.int 45) ∧
    UserItems.try_sell_item c2mid 1 "sword" = (c2end, PyVal.int 55) ∧
    lookupVal c2db.users 1 = some 50 ∧
    lookupVal c2end.users 1 = some 55 ∧
    ((100 : Nat) / 10 < 100) ∧
    ¬ ((55 : Int) < 50) :=
  ⟨rfl, rfl, rfl, rfl, by decide, by decide⟩

/-- Unfolding lemma for a user-item sale whose join succeeds. -/
theorem user_sell_found (db : DB) (uid : Nat) (nm : String) (it : ItemRow)
    (r : UserInvRow)
    (hfind : db.user_items.find? (fun x => x.name = nm) = some it)
    (hinv : UserInv.findInv db.user_inventory uid it.id = some r) :
    UserItems.try_sell_item db uid nm =
      ({ db with user_inventory := if r.quantity = 1 then UserInv.delInv db.user_inventory uid it.id else UserInv.decInv db.user_inventory uid it.id, users := setAdd db.users uid ((it.cost / 10 : Nat) : Int) },
        match lookupVal (setAdd db.users uid ((it.cost / 10 : Nat) : Int)) uid with
        | some v => PyVal.int v
        | none => PyVal.noneVal) := by
  simp only [UserItems.try_sell_item, UserItems.sellFetch, hfind, hinv]
  rfl

/-- Unfolding lemma for a gang-item sale whose join succeeds. -/
theorem gang_sell_found (db : DB) (uid : Nat) (nm g : String) (it : ItemRow)
    (r : GangInvRow) (hlead : isLeadership db uid = true)
    (hgang : gangOf db uid = some g)
    (hfind : db.gang_items.find? (fun x => x.name = nm) = some it)
    (hinv : GangInv.findInv db.gang_inventory g it.id = some r) :
    GangItems.try_sell_item db uid nm =
      ({ db with gang_inventory := if r.quantity = 1 then GangInv.delInv db.gang_inventory g it.id else GangInv.decInv db.gang_inventory g it.id, gangs := setAdd db.gangs g ((it.cost / 10 : Nat) : Int) },
        match lookupVal (setAdd db.gangs g ((it.cost / 10 : Nat) : Int)) g with
        | some v => PyVal.int v
        | none => PyVal.noneVal) := by
  simp only [GangItems.try_sell_item, GangItems.sellFetch, hlead, hgang,
    hfind, hinv]
  rw [if_neg (by simp)]
  rfl

/-- C2 amended: a successful sale credits exactly `cost // 10` to the seller
(user points or gang control), decrements the owned quantity by 1, and
deletes the inventory row when the quantity reaches 0 — as claimed, for both
variants.  The buy-then-sell sink property holds for GANG items: buying at
cost C and immediately selling leaves control at `c - C + C // 10 < c`
whenever `C // 10 < C`.  (For user items the buy debits `value`, not `cost`,
so the net change is `cost // 10 - value`, which can be positive — see the
counterexample.) -/
theorem c2_amended_sell_item :
    (∀ (db : DB) (uid : Nat) (nm : String) (it : ItemRow) (r : UserInvRow)
      (pts : Int),
      db.user_items.find? (fun x => x.name = nm) = some it →
      UserInv.findInv db.user_inventory uid it.id = some r →
      lookupVal db.users uid = some pts →
      ∃ db2 : DB,
        UserItems.try_sell_item db uid nm =
          (db2, PyVal.int (pts + ((it.cost / 10 : Nat) : Int))) ∧
        lookupVal db2.users uid = some (pts + ((it.cost / 10 : Nat) : Int)) ∧
        UserInv.qty db2.user_inventory uid it.id = r.quantity - 1 ∧
        (r.quantity = 1 →
          UserInv.findInv db2.user_inventory uid it.id = none)) ∧
    (∀ (db : DB) (uid : Nat) (nm g : String) (it : ItemRow) (r : GangInvRow)
      (c : Int),
      isLeadership db uid = true →
      gangOf db uid = some g →
      db.gang_items.find? (fun x => x.name = nm) = some it →
      GangInv.findInv db.gang_inventory g it.id = some r →
      lookupVal db.gangs g = some c →
      ∃ db2 : DB,
        GangItems.try_sell_item db uid nm =
          (db2, PyVal.int (c + ((it.cost / 10 : Nat) : Int))) ∧
        lookupVal db2.gangs g = some (c + ((it.cost / 10 : Nat) : Int)) ∧
        GangInv.qty db2.gang_inventory g it.id = r.quantity - 1 ∧
        (r.quantity = 1 →
          GangInv.findInv db2.gang_inventory g it.id = none)) ∧
    (∀ (db : DB) (uid : Nat) (nm g : String) (it : ItemRow) (c : Int),
      isLeadership db uid = true →
      gangOf db uid = some g →
      db.gang_items.find? (fun x => x.name = nm) = some it →
      lookupVal db.gangs g = some c →
      (it.cost : Int) ≤ c →
      ∃ (db2 db3 : DB),
        GangItems.try_buy_item db uid nm =
          Except.ok (db2, PyVal.int (c - it.cost)) ∧
        GangItems.try_sell_item db2 uid nm =
          (db3, PyVal.int (c - it.cost + ((it.cost / 10 : Nat) : Int))) ∧
        lookupVal db3.gangs g =
          some (c - it.cost + ((it.cost / 10 : Nat) : Int)) ∧
        (((it.cost / 10 : Nat) : Int) < (it.cost : Int) →
          c - it.cost + ((it.cost / 10 : Nat) : Int) < c)) := by
  refine ⟨?_, ?_, ?_⟩
  · intro db uid nm it r pts hfind hinv hpts
    have husers : lookupVal (setAdd db.users uid ((it.cost / 10 : Nat) : Int))
        uid = some (pts + ((it.cost / 10 : Nat) : Int)) := by
      rw [lookupVal_setAdd_self, hpts]
      rfl
    refine ⟨{ db with user_inventory := if r.quantity = 1 then UserInv.delInv db.user_inventory uid it.id else UserInv.decInv db.user_inventory uid it.id, users := setAdd db.users uid ((it.cost / 10 : Nat) : Int) }, ?_, husers, ?_, ?_⟩
    · rw [user_sell_found db uid nm it r hfind hinv, husers]
    · by_cases hq : r.quantity = 1
      · rw [if_pos hq]
        simp [UserInv.qty, UserInv.findInv_del_self, hq]
      · rw [if_neg hq]
        simp only [UserInv.qty, UserInv.findInv_dec_self, hinv]
        rfl
    · intro hq
      rw [if_pos hq]
      exact UserInv.findInv_del_self db.user_inventory uid it.id
  · intro db uid nm g it r c hlead hgang hfind hinv hctl
    have hgangs : lookupVal (setAdd db.gangs g ((it.cost / 10 : Nat) : Int))
        g = some (c + ((it.cost / 10 : Nat) : Int)) := by
      rw [lookupVal_setAdd_self, hctl]
      rfl
    refine ⟨{ db with gang_inventory := if r.quantity = 1 then GangInv.delInv db.gang_inventory g it.id else GangInv.decInv db.gang_inventory g it.id, gangs := setAdd db.gangs g ((it.cost / 10 : Nat) : Int) }, ?_, hgangs, ?_, ?_⟩
    · rw [gang_sell_found db uid nm g it r hlead hgang hfind hinv, hgangs]
    · by_cases hq : r.quantity = 1
      · rw [if_pos hq]
        simp [GangInv.qty, GangInv.gang_findInv_del_self, hq]
      · rw [if_neg hq]
        simp only [GangInv.qty, GangInv.gang_findInv_dec_self, hinv]
        rfl
    · intro hq
      rw [if_pos hq]
      exact GangInv.gang_findInv_del_self db.gang_inventory g it.id
  · intro db uid nm g it c hlead hgang hfind hctl hge
    have hbuyctl : lookupVal (setAdd db.gangs g (-(it.cost : Int))) g =
        some (c - it.cost) := by
      rw [lookupVal_setAdd_self, hctl]
      simp [sub_eq_add_neg]
    have hbuy : GangItems.try_buy_item db uid nm =
        Except.ok ({ db with gang_inventory := GangInv.upsertInv db.gang_inventory g it.id, gangs := setAdd db.gangs g (-(it.cost : Int)) }, PyVal.int (c - it.cost)) := by
      simp only [GangItems.try_buy_item, hlead, hgang, hfind, hctl]
      rw [if_neg (by simp), if_neg (by omega), hbuyctl]
    have hsellctl : lookupVal (setAdd (setAdd db.gangs g (-(it.cost : Int)))
        g ((it.cost / 10 : Nat) : Int)) g =
        some (c - it.cost + ((it.cost / 10 : Nat) : Int)) := by
      rw [lookupVal_setAdd_self, hbuyctl]
      rfl
    have hsell := gang_sell_found
      { db with gang_inventory := GangInv.upsertInv db.gang_inventory g it.id, gangs := setAdd db.gangs g (-(it.cost : Int)) }
      uid nm g it ⟨g, it.id, GangInv.qty db.gang_inventory g it.id + 1⟩
      hlead hgang hfind
      (GangInv.gang_findInv_upsert_self db.gang_inventory g it.id)
    rw [hsellctl] at hsell
    refine ⟨_, _, hbuy, hsell, hsellctl, ?_⟩
    intro hlt
    linarith

/-- Example database for the C2 witness: gang `g` has 200 control, user 1 is
its leader, and the gang item `cannon` costs 100. -/
def c2gdb : DB :=
  { users := [], gangs := [("g", 200)],
    gang_members := [⟨1, "g", true, false⟩],
    user_items := [], gang_items := [⟨1, "cannon", 100, 7, .other, "d"⟩],
    user_inventory := [], gang_inventory := [], territories := [],
    pools := [] }

/-- C2 witness: buying `cannon` at 100 and selling it back leaves gang `g`
at 110 control, strictly below the original 200. -/
theorem c2_amended_sell_item_witness :
    ∃ (db2 db3 : DB),
      GangItems.try_buy_item c2gdb 1 "cannon" =
        Except.ok (db2, PyVal.int (200 - 100)) ∧
      GangItems.try_sell_item db2 1 "cannon" =
        (db3, PyVal.int (200 - 100 + ((100 / 10 : Nat) : Int))) ∧
      lookupVal db3.gangs "g" =
        some (200 - 100 + ((100 / 10 : Nat) : Int)) ∧
      (((100 / 10 : Nat) : Int) < (100 : Int) →
        200 - 100 + ((100 / 10 : Nat) : Int) < 200) :=
  c2_amended_sell_item.2.2 c2gdb 1 "cannon" "g"
    ⟨1, "cannon", 100, 7, .other, "d"⟩ 200 rfl rfl rfl rfl (by decide)

/-- Deletion keeps the inventory primary key duplicate-free. -/
theorem UserInv.keysNodup_delInv (inv : List UserInvRow) (u i : Nat)
    (hk : UserInv.keysNodup inv) :
    UserInv.keysNodup (UserInv.delInv inv u i) := by
  unfold UserInv.keysNodup at hk ⊢
  unfold UserInv.delInv
  exact hk.sublist ((List.filter_sublist _).map _)

/-- Decrementing keeps the inventory primary key duplicate-free: the keys of
the rows are untouched. -/
theorem UserInv.keysNodup_decInv (inv : List UserInvRow) (u i : Nat)
    (hk : UserInv.keysNodup inv) :
    UserInv.keysNodup (UserInv.decInv inv u i) := by
  unfold UserInv.keysNodup at hk ⊢
  have hmap : (UserInv.decInv inv u i).map
      (fun r => (r.user_id, r.item)) = inv.map (fun r => (r.user_id, r.item)) := by
    unfold UserInv.decInv
    rw [List.map_map]
    refine List.map_congr_left ?_
    intro a _
    by_cases h : a.user_id = u ∧ a.item = i <;> simp [h]
  rw [hmap]
  exact hk

/-- Example database for claim C7: user 1 leads gang `g` and owns two units
of the user item `gem` (id 1). -/
def c7db : DB :=
  { users := [], gangs := [],
    gang_members := [⟨1, "g", true, true⟩],
    user_items := [⟨1, "gem", 10, 5, .other, "d"⟩], gang_items := [],
    user_inventory := [⟨1, 1, 2⟩], gang_inventory := [], territories := [],
    pools := [] }

/-- C7 counterexample: the claim says every successful gift decreases the
sender's quantity by exactly 1.  Gifting `gem` to oneself succeeds (the code
does not forbid `target = sender`), yet the sender's quantity stays at 2:
the decrement and the upsert cancel, and the final state equals the initial
one. -/
theorem c7_counterexample_self_gift_no_decrease :
    UserItems.try_gift_item c7db 1 "gem" 1 =
      (c7db, "You gifted `gem` to <@1>.") ∧
    UserInv.qty c7db.user_inventory 1 1 = 2 :=
  ⟨rfl, rfl⟩

/-- Unfolding lemma for a gift whose leadership check and join succeed. -/
theorem user_gift_found (db : DB) (uid : Nat) (nm : String) (target : Nat)
    (it : ItemRow) (r : UserInvRow) (hlead : isLeadership db uid = true)
    (hfind : db.user_items.find? (fun x => x.name = nm) = some it)
    (hinv : UserInv.findInv db.user_inventory uid it.id = some r) :
    UserItems.try_gift_item db uid nm target =
      ({ db with user_inventory := UserInv.upsertInv (if r.quantity = 1 then UserInv.delInv db.user_inventory uid it.id else UserInv.decInv db.user_inventory uid it.id) target it.id },
        "You gifted `" ++ nm ++ "` to <@" ++ toString target ++ ">.") := by
  simp only [UserItems.try_gift_item, UserItems.giftFetch, hfind, hinv, hlead]
  rw [if_neg (by simp)]
  rfl

/-- C7 amended: for every successful gift the total number of units of the
item across all owners is conserved, and when the recipient differs from the
sender the sender's quantity drops by exactly 1 (the row being deleted when
it reaches 0) and the recipient's quantity rises by exactly 1.  (A self-gift
succeeds but leaves the sender's quantity unchanged — see the
counterexample.) -/
theorem c7_amended_gift_conserves (db : DB) (uid : Nat) (nm : String)
    (target : Nat) (it : ItemRow) (r : UserInvRow)
    (hlead : isLeadership db uid = true)
    (hfind : db.user_items.find? (fun x => x.name = nm) = some it)
    (hinv : UserInv.findInv db.user_inventory uid it.id = some r)
    (hk : UserInv.keysNodup db.user_inventory)
    (hq : 1 ≤ r.quantity) :
    ∃ db2 : DB,
      UserItems.try_gift_item db uid nm target =
        (db2, "You gifted `" ++ nm ++ "` to <@" ++ toString target ++ ">.") ∧
      UserInv.itemTotal db2.user_inventory it.id =
        UserInv.itemTotal db.user_inventory it.id ∧
      (target ≠ uid →
        UserInv.qty db2.user_inventory uid it.id = r.quantity - 1 ∧
        UserInv.qty db2.user_inventory target it.id =
          UserInv.qty db.user_inventory target it.id + 1 ∧
        (r.quantity = 1 →
          UserInv.findInv db2.user_inventory uid it.id = none)) := by
  have hne : ∀ target ≠ uid, ¬ ((uid = target ∧ it.id = it.id)) := by
    intro t ht hc
    exact ht hc.1.symm
  by_cases hq1 : r.quantity = 1
  · refine ⟨{ db with user_inventory := UserInv.upsertInv (UserInv.delInv db.user_inventory uid it.id) target it.id }, ?_, ?_, ?_⟩
    · rw [user_gift_found db uid nm target it r hlead hfind hinv, if_pos hq1]
    · have h1 := UserInv.itemTotal_del db.user_inventory uid it.id r hk hinv
      have h2 := UserInv.itemTotal_upsert
        (UserInv.delInv db.user_inventory uid it.id) target it.id
        (UserInv.keysNodup_delInv db.user_inventory uid it.id hk)
      change UserInv.itemTotal (UserInv.upsertInv
        (UserInv.delInv db.user_inventory uid it.id) target it.id) it.id = _
      omega
    · intro ht
      have hdel := UserInv.findInv_del_self db.user_inventory uid it.id
      have hsender : UserInv.findInv (UserInv.upsertInv
          (UserInv.delInv db.user_inventory uid it.id) target it.id)
          uid it.id = none := by
        rw [UserInv.findInv_upsert_ne _ _ _ _ _
          (fun hc => ht hc.1.symm), hdel]
      refine ⟨?_, ?_, fun _ => hsender⟩
      · simp [UserInv.qty, hsender, hq1]
      · rw [UserInv.qty_upsert_self]
        congr 1
        unfold UserInv.qty
        rw [UserInv.findInv_del_ne _ _ _ _ _
          (fun hc => ht hc.1)]
  · refine ⟨{ db with user_inventory := UserInv.upsertInv (UserInv.decInv db.user_inventory uid it.id) target it.id }, ?_, ?_, ?_⟩
    · rw [user_gift_found db uid nm target it r hlead hfind hinv, if_neg hq1]
    · have h1 := UserInv.itemTotal_dec db.user_inventory uid it.id r hk hinv
        hq
      have h2 := UserInv.itemTotal_upsert
        (UserInv.decInv db.user_inventory uid it.id) target it.id
        (UserInv.keysNodup_decInv db.user_inventory uid it.id hk)
      change UserInv.itemTotal (UserInv.upsertInv
        (UserInv.decInv db.user_inventory uid it.id) target it.id) it.id = _
      omega
    · intro ht
      have hdec : UserInv.findInv (UserInv.decInv db.user_inventory uid it.id)
          uid it.id = some { r with quantity := r.quantity - 1 } := by
        rw [UserInv.findInv_dec_self, hinv]
        rfl
      refine ⟨?_, ?_, fun hc => absurd hc hq1⟩
      · have hsender : UserInv.findInv (UserInv.upsertInv
            (UserInv.decInv db.user_inventory uid it.id) target it.id)
            uid it.id = some { r with quantity := r.quantity - 1 } := by
          rw [UserInv.findInv_upsert_ne _ _ _ _ _
            (fun hc => ht hc.1.symm), hdec]
        simp [UserInv.qty, hsender]
      · rw [UserInv.qty_upsert_self]
        congr 1
        unfold UserInv.qty
        rw [UserInv.findInv_dec_ne _ _ _ _ _
          (fun hc => ht hc.1)]

/-- C7 witness: user 1 (leadership) gifts one of two `gem`s to user 9. -/
theorem c7_amended_gift_conserves_witness :
    ∃ db2 : DB,
      UserItems.try_gift_item c7db 1 "gem" 9 =
        (db2, "You gifted `gem` to <@9>.") ∧
      UserInv.itemTotal db2.user_inventory 1 =
        UserInv.itemTotal c7db.user_inventory 1 ∧
      ((9 : Nat) ≠ 1 →
        UserInv.qty db2.user_inventory 1 1 = 2 - 1 ∧
        UserInv.qty db2.user_inventory 9 1 =
          UserInv.qty c7db.user_inventory 9 1 + 1 ∧
        ((2 : Nat) = 1 →
          UserInv.findInv db2.user_inventory 1 1 = none)) :=
  c7_amended_gift_conserves c7db 1 "gem" 9 ⟨1, "gem", 10, 5, .other, "d"⟩
    ⟨1, 1, 2⟩ rfl rfl rfl (by decide) (by decide)

/-- Bounding `roundHalfEven` below an even integer: the tie at `n - 1/2`
rounds up to `n` (because `n - 1` is odd), so the bound is strict. -/
theorem roundHalfEven_lt_even (x : ℚ) (n : ℤ) (hn : n % 2 = 0) :
    RepAdmin.roundHalfEven x < n ↔ x < (n : ℚ) - 1 / 2 := by
  simp only [RepAdmin.roundHalfEven]
  have hf1 : ((⌊x⌋ : ℤ) : ℚ) ≤ x := Int.floor_le x
  have hf2 : x < (⌊x⌋ : ℚ) + 1 := Int.lt_floor_add_one x
  set f := ⌊x⌋ with hfdef
  by_cases h1 : x - (f : ℚ) < 1 / 2
  · rw [if_pos h1]
    constructor
    · intro h
      have h3 : (f : ℚ) ≤ ((n - 1 : ℤ) : ℚ) := by
        exact_mod_cast Int.le_sub_one_of_lt h
      push_cast at h3
      linarith
    · intro h
      have h3 : (f : ℚ) < (n : ℚ) := by linarith
      exact_mod_cast h3
  · rw [if_neg h1]
    by_cases h2 : 1 / 2 < x - (f : ℚ)
    · rw [if_pos h2]
      constructor
      · intro h
        have h3 : ((f + 1 : ℤ) : ℚ) ≤ ((n - 1 : ℤ) : ℚ) := by
          exact_mod_cast Int.le_sub_one_of_lt h
        push_cast at h3
        linarith
      · intro h
        have h3 : ((f + 1 : ℤ) : ℚ) < (n : ℚ) := by push_cast; linarith
        exact_mod_cast h3
    · rw [if_neg h2]
      have hx : x - (f : ℚ) = 1 / 2 :=
        le_antisymm (not_lt.mp h2) (not_lt.mp h1)
      by_cases h3 : f % 2 = 0
      · rw [if_pos h3]
        constructor
        · intro h
          have h4 : f ≤ n - 2 := by omega
          have h5 : (f : ℚ) ≤ ((n - 2 : ℤ) : ℚ) := by exact_mod_cast h4
          push_cast at h5
          linarith
        · intro h
          have h4 : (f : ℚ) < ((n - 1 : ℤ) : ℚ) := by push_cast; linarith
          have h5 : f < n - 1 := by exact_mod_cast h4
          omega
      · rw [if_neg h3]
        constructor
        · intro h
          have h4 : f ≤ n - 2 := by omega
          have h5 : (f : ℚ) ≤ ((n - 2 : ℤ) : ℚ) := by exact_mod_cast h4
          push_cast at h5
          linarith
        · intro h
          have h4 : (f : ℚ) < ((n - 1 : ℤ) : ℚ) := by push_cast; linarith
          have h5 : f < n - 1 := by exact_mod_cast h4
          omega

/-- Bounding `roundHalfEven` below an odd integer: the tie at `n - 1/2`
rounds down to the even `n - 1`, so the bound is inclusive. -/
theorem roundHalfEven_lt_odd (x : ℚ) (n : ℤ) (hn : n % 2 = 1) :
    RepAdmin.roundHalfEven x < n ↔ x ≤ (n : ℚ) - 1 / 2 := by
  simp only [RepAdmin.roundHalfEven]
  have hf1 : ((⌊x⌋ : ℤ) : ℚ) ≤ x := Int.floor_le x
  have hf2 : x < (⌊x⌋ : ℚ) + 1 := Int.lt_floor_add_one x
  set f := ⌊x⌋ with hfdef
  by_cases h1 : x - (f : ℚ) < 1 / 2
  · rw [if_pos h1]
    constructor
    · intro h
      have h3 : (f : ℚ) ≤ ((n - 1 : ℤ) : ℚ) := by
        exact_mod_cast Int.le_sub_one_of_lt h
      push_cast at h3
      linarith
    · intro h
      have h3 : (f : ℚ) ≤ (n : ℚ) - 1 / 2 := by linarith
      have h4 : (2 * f : ℤ) ≤ 2 * n - 1 := by
        have : ((2 * f : ℤ) : ℚ) ≤ ((2 * n - 1 : ℤ) : ℚ) := by
          push_cast
          linarith
        exact_mod_cast this
      omega
  · rw [if_neg h1]
    by_cases h2 : 1 / 2 < x - (f : ℚ)
    · rw [if_pos h2]
      constructor
      · intro h
        have h3 : ((f + 1 : ℤ) : ℚ) ≤ ((n - 1 : ℤ) : ℚ) := by
          exact_mod_cast Int.le_sub_one_of_lt h
        push_cast at h3
        linarith
      · intro h
        have h3 : (f : ℚ) < (n : ℚ) - 1 := by linarith
        have h4 : (f : ℚ) < ((n - 1 : ℤ) : ℚ) := by push_cast; linarith
        have h5 : f < n - 1 := by exact_mod_cast h4
        omega
    · rw [if_neg h2]
      have hx : x - (f : ℚ) = 1 / 2 :=
        le_antisymm (not_lt.mp h2) (not_lt.mp h1)
      by_cases h3 : f % 2 = 0
      · rw [if_pos h3]
        constructor
        · intro h
          have h4 : f ≤ n - 1 := by omega
          have h5 : (f : ℚ) ≤ ((n - 1 : ℤ) : ℚ) := by exact_mod_cast h4
          push_cast at h5
          linarith
        · intro h
          have h4 : (f : ℚ) ≤ ((n - 1 : ℤ) : ℚ) := by push_cast; linarith
          have h5 : f ≤ n - 1 := by exact_mod_cast h4
          omega
      · rw [if_neg h3]
        constructor
        · intro h
          have h4 : f ≤ n - 2 := by omega
          have h5 : (f : ℚ) ≤ ((n - 2 : ℤ) : ℚ) := by exact_mod_cast h4
          push_cast at h5
          linarith
        · intro h
          have h4 : (f : ℚ) ≤ ((n - 1 : ℤ) : ℚ) := by push_cast; linarith
          have h5 : f ≤ n - 1 := by exact_mod_cast h4
          omega

/-- Scaling the two-decimal comparison down to the integer scale. -/
theorem qdiv100_lt (m k : ℤ) : (m : ℚ) / 100 < (k : ℚ) / 100 ↔ m < k := by
  rw [div_lt_div_iff_of_pos_right (by norm_num : (0 : ℚ) < 100)]
  exact_mod_cast Iff.rfl

/-- Basic bounds and monotonicity of `roundHalfEven`. -/
theorem rhe_floor_le (x : ℚ) : ⌊x⌋ ≤ RepAdmin.roundHalfEven x := by
  simp only [RepAdmin.roundHalfEven]
  split_ifs <;> omega

theorem rhe_le_floor_add_one (x : ℚ) : RepAdmin.roundHalfEven x ≤ ⌊x⌋ + 1 := by
  simp only [RepAdmin.roundHalfEven]
  split_ifs <;> omega

/-- The rounding moves a value by at most a half, downward. -/
theorem rhe_ge (x : ℚ) : x - 1 / 2 ≤ (RepAdmin.roundHalfEven x : ℚ) := by
  have h1 := Int.floor_le x
  have h2 := Int.lt_floor_add_one x
  simp only [RepAdmin.roundHalfEven]
  split_ifs with ha hb hc <;> push_cast <;> linarith

/-- The rounding moves a value by at most a half, upward. -/
theorem rhe_le (x : ℚ) : (RepAdmin.roundHalfEven x : ℚ) ≤ x + 1 / 2 := by
  have h1 := Int.floor_le x
  have h2 := Int.lt_floor_add_one x
  simp only [RepAdmin.roundHalfEven]
  split_ifs with ha hb hc <;> push_cast <;> linarith

theorem rhe_eq_floor_of {x : ℚ} (h : x - (⌊x⌋ : ℚ) < 1 / 2) :
    RepAdmin.roundHalfEven x = ⌊x⌋ := by
  simp only [RepAdmin.roundHalfEven]
  rw [if_pos h]

theorem rhe_eq_add_one_of {x : ℚ} (h : 1 / 2 < x - (⌊x⌋ : ℚ)) :
    RepAdmin.roundHalfEven x = ⌊x⌋ + 1 := by
  simp only [RepAdmin.roundHalfEven]
  rw [if_neg (by linarith), if_pos h]

/-- Round-half-to-even is monotone. -/
theorem rhe_mono {x y : ℚ} (h : x ≤ y) :
    RepAdmin.roundHalfEven x ≤ RepAdmin.roundHalfEven y := by
  have hf := Int.floor_mono h
  rcases eq_or_lt_of_le hf with heq | hlt
  · by_cases hx1 : x - (⌊x⌋ : ℚ) < 1 / 2
    · rw [rhe_eq_floor_of hx1, heq]
      exact rhe_floor_le y
    · by_cases hx2 : 1 / 2 < x - (⌊x⌋ : ℚ)
      · have hxy : (⌊x⌋ : ℚ) ≤ (⌊y⌋ : ℚ) := by exact_mod_cast hf
        have hy2 : 1 / 2 < y - (⌊y⌋ : ℚ) := by
          rw [← heq] at *
          linarith
        rw [rhe_eq_add_one_of hx2, rhe_eq_add_one_of hy2, heq]
      · have hx : x - (⌊x⌋ : ℚ) = 1 / 2 :=
          le_antisymm (not_lt.mp hx2) (not_lt.mp hx1)
        by_cases hy2 : 1 / 2 < y - (⌊y⌋ : ℚ)
        · rw [rhe_eq_add_one_of hy2]
          have := rhe_le_floor_add_one x
          omega
        · have hy1 : ¬ (y - (⌊y⌋ : ℚ) < 1 / 2) := by
            rw [← heq]
            push_cast
            linarith
          have hy : y - (⌊y⌋ : ℚ) = 1 / 2 :=
            le_antisymm (not_lt.mp hy2) (not_lt.mp hy1)
          have hxy : x = y := by
            rw [← heq] at hy
            linarith
          rw [hxy]
  · have h1 := rhe_le_floor_add_one x
    have h2 := rhe_floor_le y
    omega

/-- Characterization of `Int.log 2` by a bracketing power of two. -/
theorem int_log_eq (q : ℚ) (e : ℤ) (h0 : 0 < q) (h1 : 2 ^ e ≤ q)
    (h2 : q < 2 ^ (e + 1)) : Int.log 2 q = e := by
  refine le_antisymm ?_ ?_
  · have h2a : q < ((2 : ℕ) : ℚ) ^ (e + 1) := by exact_mod_cast h2
    have := (Int.lt_zpow_iff_log_lt (by norm_num) h0).mp h2a
    omega
  · have h1a : ((2 : ℕ) : ℚ) ^ e ≤ q := by exact_mod_cast h1
    exact (Int.zpow_le_iff_le_log (by norm_num) h0).mp h1a

theorem RN53_zero : RepAdmin.RN53 0 = 0 := by
  simp [RepAdmin.RN53]

theorem RN53_of_pos {q : ℚ} (h0 : 0 < q) :
    RepAdmin.RN53 q =
      (RepAdmin.roundHalfEven (q / 2 ^ (Int.log 2 q - 52)) : ℚ) *
        2 ^ (Int.log 2 q - 52) := by
  rw [RepAdmin.RN53, if_neg (ne_of_gt h0), if_pos h0]

theorem RN53_eq (q : ℚ) (e : ℤ) (h0 : 0 < q) (h1 : 2 ^ e ≤ q)
    (h2 : q < 2 ^ (e + 1)) :
    RepAdmin.RN53 q = (RepAdmin.roundHalfEven (q / 2 ^ (e - 52)) : ℚ) * 2 ^ (e - 52) := by
  rw [RepAdmin.RN53, if_neg (ne_of_gt h0), if_pos h0, int_log_eq q e h0 h1 h2]

/-- A positive value and its binary64 rounding share the power-of-two bracket, and the rounding is within half an ulp, hence a relative error of at most `2 ^ (-53)`. -/
theorem RN53_bounds {q : ℚ} (h0 : 0 < q) :
    (2 : ℚ) ^ (Int.log 2 q) ≤ RepAdmin.RN53 q ∧
    RepAdmin.RN53 q ≤ (2 : ℚ) ^ (Int.log 2 q + 1) ∧
    |RepAdmin.RN53 q - q| ≤ q / 2 ^ 53 := by
  set e := Int.log 2 q with he
  have hw : (0 : ℚ) < 2 ^ (e - 52) := zpow_pos (by norm_num) _
  have hql : (2 : ℚ) ^ e ≤ q := by
    exact_mod_cast Int.zpow_log_le_self (by norm_num : 1 < 2) h0
  have hqu : q < (2 : ℚ) ^ (e + 1) := by
    exact_mod_cast Int.lt_zpow_succ_log_self (by norm_num : 1 < 2) q
  have h52 : (4503599627370496 : ℚ) * 2 ^ (e - 52) = 2 ^ e := by
    have h : (4503599627370496 : ℚ) = 2 ^ (52 : ℤ) := by norm_num
    rw [h, ← zpow_add₀ (by norm_num : (2 : ℚ) ≠ 0)]
    congr 1
    omega
  have h53 : (9007199254740992 : ℚ) * 2 ^ (e - 52) = 2 ^ (e + 1) := by
    have h : (9007199254740992 : ℚ) = 2 ^ (53 : ℤ) := by norm_num
    rw [h, ← zpow_add₀ (by norm_num : (2 : ℚ) ≠ 0)]
    congr 1
    omega
  set s := q / 2 ^ (e - 52) with hs
  have hsw : s * 2 ^ (e - 52) = q := div_mul_cancel₀ q (ne_of_gt hw)
  have hs_lb : (4503599627370496 : ℚ) ≤ s := by
    rw [hs, le_div_iff hw, h52]
    exact hql
  have hs_ub : s < (9007199254740992 : ℚ) := by
    rw [hs, div_lt_iff hw, h53]
    exact hqu
  have hr_lb : (4503599627370496 : ℚ) ≤ (RepAdmin.roundHalfEven s : ℚ) := by
    have h1 : ((4503599627370495 : ℤ) : ℚ) < (RepAdmin.roundHalfEven s : ℚ) := by
      have := rhe_ge s
      push_cast
      linarith
    have h2 : (4503599627370495 : ℤ) < RepAdmin.roundHalfEven s := by exact_mod_cast h1
    have h3 : (4503599627370496 : ℤ) ≤ RepAdmin.roundHalfEven s := by omega
    exact_mod_cast h3
  have hr_ub : (RepAdmin.roundHalfEven s : ℚ) ≤ (9007199254740992 : ℚ) := by
    have h1 : (RepAdmin.roundHalfEven s : ℚ) < ((9007199254740993 : ℤ) : ℚ) := by
      have := rhe_le s
      push_cast
      linarith
    have h2 : RepAdmin.roundHalfEven s < (9007199254740993 : ℤ) := by exact_mod_cast h1
    have h3 : RepAdmin.roundHalfEven s ≤ (9007199254740992 : ℤ) := by omega
    exact_mod_cast h3
  rw [RN53_of_pos h0, ← he, ← hs]
  refine ⟨?_, ?_, ?_⟩
  · calc (2 : ℚ) ^ e = 4503599627370496 * 2 ^ (e - 52) := h52.symm
      _ ≤ (RepAdmin.roundHalfEven s : ℚ) * 2 ^ (e - 52) :=
        mul_le_mul_of_nonneg_right hr_lb hw.le
  · calc (RepAdmin.roundHalfEven s : ℚ) * 2 ^ (e - 52) ≤
        9007199254740992 * 2 ^ (e - 52) :=
        mul_le_mul_of_nonneg_right hr_ub hw.le
      _ = 2 ^ (e + 1) := h53
  · have herr : |(RepAdmin.roundHalfEven s : ℚ) - s| ≤ 1 / 2 :=
      abs_le.mpr ⟨by linarith [rhe_ge s], by linarith [rhe_le s]⟩
    have habs : |(RepAdmin.roundHalfEven s : ℚ) * 2 ^ (e - 52) - q| =
        |(RepAdmin.roundHalfEven s : ℚ) - s| * 2 ^ (e - 52) := by
      conv_lhs => rw [← hsw]
      rw [← sub_mul, abs_mul, abs_of_pos hw]
    rw [habs]
    have hb : |(RepAdmin.roundHalfEven s : ℚ) - s| * 2 ^ (e - 52) ≤
        (1 / 2) * 2 ^ (e - 52) :=
      mul_le_mul_of_nonneg_right herr hw.le
    have hq253 : (1 / 2 : ℚ) * 2 ^ (e - 52) ≤ q / 2 ^ 53 := by
      rw [le_div_iff (by positivity : (0 : ℚ) < 2 ^ 53)]
      have hpow : (1 / 2 : ℚ) * 2 ^ (e - 52) * 2 ^ (53 : ℕ) = 2 ^ e := by
        have h1 : ((2 : ℚ) ^ (53 : ℕ)) = (2 : ℚ) ^ (53 : ℤ) := by
          rw [← zpow_natCast]
          norm_num
        have h2 : (1 / 2 : ℚ) = (2 : ℚ) ^ (-1 : ℤ) := by norm_num
        rw [h1, h2, ← zpow_add₀ (by norm_num : (2 : ℚ) ≠ 0),
          ← zpow_add₀ (by norm_num : (2 : ℚ) ≠ 0)]
        congr 1
        omega
      rw [hpow]
      exact hql
    linarith

theorem RN53_nonneg {q : ℚ} (h : 0 ≤ q) : 0 ≤ RepAdmin.RN53 q := by
  rcases eq_or_lt_of_le h with h0 | h0
  · rw [← h0, RN53_zero]
  · have := (RN53_bounds h0).1
    have hp : (0 : ℚ) < 2 ^ (Int.log 2 q) := zpow_pos (by norm_num) _
    linarith

/-- Binary64 rounding is monotone on nonnegative values. -/
theorem RN53_mono {a b : ℚ} (ha : 0 ≤ a) (hab : a ≤ b) :
    RepAdmin.RN53 a ≤ RepAdmin.RN53 b := by
  rcases eq_or_lt_of_le ha with h0 | h0
  · rw [← h0, RN53_zero]
    exact RN53_nonneg (le_trans ha hab)
  · have hb0 : 0 < b := lt_of_lt_of_le h0 hab
    have hle : Int.log 2 a ≤ Int.log 2 b := Int.log_mono_right h0 hab
    rcases eq_or_lt_of_le hle with heq | hlt
    · rw [RN53_of_pos h0, RN53_of_pos hb0, ← heq]
      have hw : (0 : ℚ) < 2 ^ (Int.log 2 a - 52) := zpow_pos (by norm_num) _
      refine mul_le_mul_of_nonneg_right ?_ hw.le
      have hq : a / 2 ^ (Int.log 2 a - 52) ≤ b / 2 ^ (Int.log 2 a - 52) := by
        gcongr
      exact_mod_cast rhe_mono hq
    · calc RepAdmin.RN53 a ≤ (2 : ℚ) ^ (Int.log 2 a + 1) := (RN53_bounds h0).2.1
        _ ≤ (2 : ℚ) ^ (Int.log 2 b) :=
          zpow_le_zpow_right₀ (by norm_num) (by omega)
        _ ≤ RepAdmin.RN53 b := (RN53_bounds hb0).1

/-- The doubles nearest to the decimals appearing in `check_pool`, as exact dyadic rationals. -/
theorem RN53_val_33 : RepAdmin.RN53 (33 / 100) = 5944751508129055 / 2 ^ 54 := by
  rw [RN53_eq _ (-2) (by norm_num) (by norm_num) (by norm_num)]
  norm_num [RepAdmin.roundHalfEven]

theorem RN53_val_34 : RepAdmin.RN53 (34 / 100) = 6124895493223875 / 2 ^ 54 := by
  rw [RN53_eq _ (-2) (by norm_num) (by norm_num) (by norm_num)]
  norm_num [RepAdmin.roundHalfEven]

theorem RN53_val_66 : RepAdmin.RN53 (66 / 100) = 5944751508129055 / 2 ^ 53 := by
  rw [RN53_eq _ (-1) (by norm_num) (by norm_num) (by norm_num)]
  norm_num [RepAdmin.roundHalfEven]

theorem RN53_val_67 : RepAdmin.RN53 (67 / 100) = 6034823500676465 / 2 ^ 53 := by
  rw [RN53_eq _ (-1) (by norm_num) (by norm_num) (by norm_num)]
  norm_num [RepAdmin.roundHalfEven]

theorem RN53_val_99 : RepAdmin.RN53 (99 / 100) = 8917127262193582 / 2 ^ 53 := by
  rw [RN53_eq _ (-1) (by norm_num) (by norm_num) (by norm_num)]
  norm_num [RepAdmin.roundHalfEven]

theorem RN53_val_one : RepAdmin.RN53 1 = 1 := by
  rw [RN53_eq _ 0 (by norm_num) (by norm_num) (by norm_num)]
  norm_num [RepAdmin.roundHalfEven]

theorem RN53_val_101 : RepAdmin.RN53 (101 / 100) = 4548635623644201 / 2 ^ 52 := by
  rw [RN53_eq _ 0 (by norm_num) (by norm_num) (by norm_num)]
  norm_num [RepAdmin.roundHalfEven]

theorem RN53_val_336 : RepAdmin.RN53 (336 / 1000) = 6052837899185947 / 2 ^ 54 := by
  rw [RN53_eq _ (-2) (by norm_num) (by norm_num) (by norm_num)]
  norm_num [RepAdmin.roundHalfEven]

theorem RN53_val_665 : RepAdmin.RN53 (665 / 1000) = 5989787504402760 / 2 ^ 53 := by
  rw [RN53_eq _ (-1) (by norm_num) (by norm_num) (by norm_num)]
  norm_num [RepAdmin.roundHalfEven]

theorem RN53_val_995 : RepAdmin.RN53 (995 / 1000) = 8962163258467287 / 2 ^ 53 := by
  rw [RN53_eq _ (-1) (by norm_num) (by norm_num) (by norm_num)]
  norm_num [RepAdmin.roundHalfEven]

/-- Comparing the double of `m / 100` with the double 0.34 for integer `m` is deciding `m < 34`: the literal parses strictly between the doubles of 33/100 and of 34/100 never split by rounding. -/
theorem RN53_m_lt_34 (m : ℤ) (hm0 : 0 ≤ m) :
    RepAdmin.RN53 ((m : ℚ) / 100) < RepAdmin.RN53 (34 / 100) ↔ m < 34 := by
  constructor
  · intro h
    by_contra hge
    push_neg at hge
    have h1 : (34 : ℚ) / 100 ≤ (m : ℚ) / 100 := by
      have h2 : (34 : ℚ) ≤ (m : ℚ) := by exact_mod_cast hge
      linarith
    exact absurd (RN53_mono (by norm_num) h1) (not_le.mpr h)
  · intro h
    have h1 : (m : ℚ) / 100 ≤ 33 / 100 := by
      have h2 : (m : ℚ) ≤ 33 := by exact_mod_cast (by omega : m ≤ (33 : ℤ))
      linarith
    have h2 : RepAdmin.RN53 ((m : ℚ) / 100) ≤ RepAdmin.RN53 (33 / 100) :=
      RN53_mono (div_nonneg (by exact_mod_cast hm0) (by norm_num)) h1
    rw [RN53_val_33] at h2
    rw [RN53_val_34]
    exact lt_of_le_of_lt h2 (by norm_num)

theorem RN53_m_lt_67 (m : ℤ) (hm0 : 0 ≤ m) :
    RepAdmin.RN53 ((m : ℚ) / 100) < RepAdmin.RN53 (67 / 100) ↔ m < 67 := by
  constructor
  · intro h
    by_contra hge
    push_neg at hge
    have h1 : (67 : ℚ) / 100 ≤ (m : ℚ) / 100 := by
      have h2 : (67 : ℚ) ≤ (m : ℚ) := by exact_mod_cast hge
      linarith
    exact absurd (RN53_mono (by norm_num) h1) (not_le.mpr h)
  · intro h
    have h1 : (m : ℚ) / 100 ≤ 66 / 100 := by
      have h2 : (m : ℚ) ≤ 66 := by exact_mod_cast (by omega : m ≤ (66 : ℤ))
      linarith
    have h2 : RepAdmin.RN53 ((m : ℚ) / 100) ≤ RepAdmin.RN53 (66 / 100) :=
      RN53_mono (div_nonneg (by exact_mod_cast hm0) (by norm_num)) h1
    rw [RN53_val_66] at h2
    rw [RN53_val_67]
    exact lt_of_le_of_lt h2 (by norm_num)

theorem RN53_m_lt_100 (m : ℤ) (hm0 : 0 ≤ m) :
    RepAdmin.RN53 ((m : ℚ) / 100) < 1 ↔ m < 100 := by
  constructor
  · intro h
    by_contra hge
    push_neg at hge
    have h1 : (1 : ℚ) ≤ (m : ℚ) / 100 := by
      have h2 : (100 : ℚ) ≤ (m : ℚ) := by exact_mod_cast hge
      linarith
    have h2 : RepAdmin.RN53 1 ≤ RepAdmin.RN53 ((m : ℚ) / 100) := RN53_mono (by norm_num) h1
    rw [RN53_val_one] at h2
    exact absurd h2 (not_le.mpr h)
  · intro h
    have h1 : (m : ℚ) / 100 ≤ 99 / 100 := by
      have h2 : (m : ℚ) ≤ 99 := by exact_mod_cast (by omega : m ≤ (99 : ℤ))
      linarith
    have h2 : RepAdmin.RN53 ((m : ℚ) / 100) ≤ RepAdmin.RN53 (99 / 100) :=
      RN53_mono (div_nonneg (by exact_mod_cast hm0) (by norm_num)) h1
    rw [RN53_val_99] at h2
    exact lt_of_le_of_lt h2 (by norm_num)

theorem RN53_m_eq_100 (m : ℤ) (hm0 : 0 ≤ m) :
    RepAdmin.RN53 ((m : ℚ) / 100) = 1 ↔ m = 100 := by
  constructor
  · intro h
    by_contra hne
    rcases lt_or_gt_of_ne hne with hlt | hgt
    · have h1 := (RN53_m_lt_100 m hm0).mpr hlt
      rw [h] at h1
      exact lt_irrefl _ h1
    · have h1 : (101 : ℚ) / 100 ≤ (m : ℚ) / 100 := by
        have h2 : (101 : ℚ) ≤ (m : ℚ) := by
          exact_mod_cast (by omega : (101 : ℤ) ≤ m)
        linarith
      have h2 : RepAdmin.RN53 (101 / 100) ≤ RepAdmin.RN53 ((m : ℚ) / 100) :=
        RN53_mono (by norm_num) h1
      rw [RN53_val_101, h] at h2
      norm_num at h2
  · intro h
    subst h
    have h1 : ((100 : ℤ) : ℚ) / 100 = 1 := by norm_num
    rw [h1, RN53_val_one]

/-- The status of `check_pool` as a function of the integer `m`, the half-even two-decimal rounding (numerator) of the double ratio. -/
theorem check_pool_status_m (current cap : Int) (m : ℤ) (hcap : cap ≠ 0)
    (hm : RepAdmin.roundHalfEven (100 * RepAdmin.RN53 ((current : ℚ) / (cap : ℚ))) = m)
    (hm0 : 0 ≤ m) :
    RepAdmin.check_pool_status current cap =
      Except.ok (if m < 34 then "dnd" else if m < 67 then "idle"
        else if m < 100 then "streaming" else if m = 100 then "online"
        else "offline") := by
  have hA := RN53_m_lt_34 m hm0
  have hB := RN53_m_lt_67 m hm0
  have hC := RN53_m_lt_100 m hm0
  have hD := RN53_m_eq_100 m hm0
  simp only [RepAdmin.check_pool_status, RepAdmin.round2, hm]
  rw [if_neg hcap]
  by_cases h1 : m < 34
  · rw [if_pos (hA.mpr h1), if_pos h1]
  · rw [if_neg (fun hc => h1 (hA.mp hc)), if_neg h1]
    by_cases h2 : m < 67
    · rw [if_pos ⟨not_lt.mp (fun hc => h1 (hA.mp hc)), hB.mpr h2⟩, if_pos h2]
    · rw [if_neg (fun hc => h2 (hB.mp hc.2)), if_neg h2]
      by_cases h3 : m < 100
      · rw [if_pos ⟨not_lt.mp (fun hc => h2 (hB.mp hc)), hC.mpr h3⟩,
          if_pos h3]
      · rw [if_neg (fun hc => h3 (hC.mp hc.2)), if_neg h3]
        by_cases h4 : m = 100
        · rw [if_pos (hD.mpr h4), if_pos h4]
        · rw [if_neg (fun hc => h4 (hD.mp hc)), if_neg h4]


/-- C4 amended: `check_pool` derives the status from `round(current / cap,
2)` computed on binary64 doubles, so the effective boundaries sit on the
double `D = RN53(current / cap)` actually compared, at the midpoints of the
two-decimal grid: "dnd" (critical) iff D < 0.335, "idle" (building) iff
0.335 ≤ D ≤ 0.665, "streaming" (near-complete) iff 0.665 < D < 0.995, and
"online" (complete) iff 0.995 ≤ D ≤ 1.005, the midpoint comparisons being
exact rational comparisons on the double and `D` within a relative error of
`2 ^ (-53)` of the exact ratio.  In particular the four cap = 100 examples
of the claim hold, but e.g. current = 336, cap = 1000 (exact ratio 0.336 <
0.34) is already "building". -/
theorem c4_amended_status_boundaries (current cap : Int) (hcap : 0 < cap)
    (hcur : 0 ≤ current) :
    (RepAdmin.check_pool_status current cap = Except.ok "dnd" ↔
      RepAdmin.RN53 ((current : ℚ) / (cap : ℚ)) < 67 / 200) ∧
    (RepAdmin.check_pool_status current cap = Except.ok "idle" ↔
      67 / 200 ≤ RepAdmin.RN53 ((current : ℚ) / (cap : ℚ)) ∧
        RepAdmin.RN53 ((current : ℚ) / (cap : ℚ)) ≤ 133 / 200) ∧
    (RepAdmin.check_pool_status current cap = Except.ok "streaming" ↔
      133 / 200 < RepAdmin.RN53 ((current : ℚ) / (cap : ℚ)) ∧
        RepAdmin.RN53 ((current : ℚ) / (cap : ℚ)) < 199 / 200) ∧
    (RepAdmin.check_pool_status current cap = Except.ok "online" ↔
      199 / 200 ≤ RepAdmin.RN53 ((current : ℚ) / (cap : ℚ)) ∧
        RepAdmin.RN53 ((current : ℚ) / (cap : ℚ)) ≤ 201 / 200) ∧
    |RepAdmin.RN53 ((current : ℚ) / (cap : ℚ)) - (current : ℚ) / (cap : ℚ)| ≤
      ((current : ℚ) / (cap : ℚ)) / 2 ^ 53 := by
  have hcapQ : (0 : ℚ) < (cap : ℚ) := by exact_mod_cast hcap
  have hcurQ : (0 : ℚ) ≤ (current : ℚ) := by exact_mod_cast hcur
  have hr0 : (0 : ℚ) ≤ (current : ℚ) / (cap : ℚ) := div_nonneg hcurQ hcapQ.le
  set r : ℚ := (current : ℚ) / (cap : ℚ) with hrdef
  set D : ℚ := RepAdmin.RN53 r with hDdef
  have hD0 : 0 ≤ D := RN53_nonneg hr0
  set m : ℤ := RepAdmin.roundHalfEven (100 * D) with hmdef
  have hm0 : 0 ≤ m := by
    have h1 := rhe_ge (100 * D)
    rw [← hmdef] at h1
    have h2 : (-1 : ℚ) < (m : ℚ) := by linarith
    have h3 : (-1 : ℤ) < m := by exact_mod_cast h2
    omega
  have hmain := check_pool_status_m current cap m (ne_of_gt hcap)
    hmdef.symm hm0
  have h34 : m < 34 ↔ D < 67 / 200 := by
    rw [hmdef, roundHalfEven_lt_even _ 34 (by decide)]
    constructor
    · intro h
      push_cast at h
      linarith
    · intro h
      push_cast
      linarith
  have h67 : m < 67 ↔ D ≤ 133 / 200 := by
    rw [hmdef, roundHalfEven_lt_odd _ 67 (by decide)]
    constructor
    · intro h
      push_cast at h
      linarith
    · intro h
      push_cast
      linarith
  have h100 : m < 100 ↔ D < 199 / 200 := by
    rw [hmdef, roundHalfEven_lt_even _ 100 (by decide)]
    constructor
    · intro h
      push_cast at h
      linarith
    · intro h
      push_cast
      linarith
  have h101 : m < 101 ↔ D ≤ 201 / 200 := by
    rw [hmdef, roundHalfEven_lt_odd _ 101 (by decide)]
    constructor
    · intro h
      push_cast at h
      linarith
    · intro h
      push_cast
      linarith
  refine ⟨?_, ?_, ?_, ?_, ?_⟩
  · rw [hmain]
    constructor
    · intro h
      by_cases h1 : m < 34
      · exact h34.mp h1
      · exfalso
        rw [if_neg h1] at h
        split_ifs at h <;> simp_all
    · intro h
      rw [if_pos (h34.mpr h)]
  · rw [hmain]
    constructor
    · intro h
      by_cases h1 : m < 34
      · rw [if_pos h1] at h
        simp at h
      · by_cases h2 : m < 67
        · exact ⟨not_lt.mp (fun hc => h1 (h34.mpr hc)), h67.mp h2⟩
        · exfalso
          rw [if_neg h1, if_neg h2] at h
          split_ifs at h <;> simp_all
    · rintro ⟨ha, hb⟩
      have h1 : ¬ m < 34 := fun hc => absurd (h34.mp hc) (not_lt.mpr ha)
      rw [if_neg h1, if_pos (h67.mpr hb)]
  · rw [hmain]
    constructor
    · intro h
      by_cases h2 : m < 67
      · by_cases h1 : m < 34
        · rw [if_pos h1] at h
          simp at h
        · rw [if_neg h1, if_pos h2] at h
          simp at h
      · by_cases h3 : m < 100
        · exact ⟨not_le.mp (fun hc => h2 (h67.mpr hc)), h100.mp h3⟩
        · exfalso
          rw [if_neg (by omega : ¬ m < 34), if_neg h2, if_neg h3] at h
          split_ifs at h <;> simp_all
    · rintro ⟨ha, hb⟩
      have h2 : ¬ m < 67 := fun hc => absurd (h67.mp hc) (not_le.mpr ha)
      rw [if_neg (by omega : ¬ m < 34), if_neg h2, if_pos (h100.mpr hb)]
  · rw [hmain]
    constructor
    · intro h
      by_cases h4 : m = 100
      · have h3 : ¬ m < 100 := by omega
        exact ⟨not_lt.mp (fun hc => h3 (h100.mpr hc)), h101.mp (by omega)⟩
      · exfalso
        split_ifs at h <;> simp_all
    · rintro ⟨ha, hb⟩
      have h3 : ¬ m < 100 := fun hc => absurd (h100.mp hc) (not_lt.mpr ha)
      have h4 : m = 100 := by
        have h5 : m < 101 := h101.mpr hb
        omega
      rw [if_neg (by omega : ¬ m < 34), if_neg (by omega : ¬ m < 67),
        if_neg h3, if_pos h4]
  · rcases eq_or_lt_of_le hr0 with h0 | h0
    · rw [hDdef, ← h0, RN53_zero]
      simp
    · rw [hDdef]
      exact (RN53_bounds h0).2.2

/-- C4 counterexample: with current = 336 and cap = 1000 the exact ratio is
0.336 < 0.34, so the claim requires "critical" ("dnd"); but `round(0.336, 2)`
is 0.34 and the code reports "idle" ("building").  At current = 665 the
double of 665/1000 lies just above 0.665, so its two-decimal rounding is
0.67 and the code reports "streaming" ("near-complete"), and at current =
995 the double of 995/1000 lies just below 0.995, so its rounding is 0.99
and the code again reports "streaming", not "online". -/
theorem c4_counterexample_rounding_crosses_boundary :
    RepAdmin.check_pool_status 336 1000 = Except.ok "idle" ∧
    ((336 : ℚ) / 1000 < 34 / 100) ∧
    RepAdmin.check_pool_status 665 1000 = Except.ok "streaming" ∧
    RepAdmin.check_pool_status 995 1000 = Except.ok "streaming" := by
  have m1 : RepAdmin.roundHalfEven
      (100 * RepAdmin.RN53 (((336 : Int) : ℚ) / ((1000 : Int) : ℚ))) = 34 := by
    rw [show (((336 : Int) : ℚ) / ((1000 : Int) : ℚ)) = 336 / 1000 by
      norm_num, RN53_val_336]
    norm_num [RepAdmin.roundHalfEven]
  have m2 : RepAdmin.roundHalfEven
      (100 * RepAdmin.RN53 (((665 : Int) : ℚ) / ((1000 : Int) : ℚ))) = 67 := by
    rw [show (((665 : Int) : ℚ) / ((1000 : Int) : ℚ)) = 665 / 1000 by
      norm_num, RN53_val_665]
    norm_num [RepAdmin.roundHalfEven]
  have m3 : RepAdmin.roundHalfEven
      (100 * RepAdmin.RN53 (((995 : Int) : ℚ) / ((1000 : Int) : ℚ))) = 99 := by
    rw [show (((995 : Int) : ℚ) / ((1000 : Int) : ℚ)) = 995 / 1000 by
      norm_num, RN53_val_995]
    norm_num [RepAdmin.roundHalfEven]
  refine ⟨?_, by norm_num, ?_, ?_⟩
  · rw [check_pool_status_m 336 1000 34 (by decide) m1 (by decide)]
    norm_num
  · rw [check_pool_status_m 665 1000 67 (by decide) m2 (by decide)]
    norm_num
  · rw [check_pool_status_m 995 1000 99 (by decide) m3 (by decide)]
    norm_num

/-- C4 witness: the four cap = 100 boundary examples of the claim, derived
from the amended boundary characterization on the double of the ratio. -/
theorem c4_amended_status_boundaries_witness :
    RepAdmin.check_pool_status 33 100 = Except.ok "dnd" ∧
    RepAdmin.check_pool_status 34 100 = Except.ok "idle" ∧
    RepAdmin.check_pool_status 67 100 = Except.ok "streaming" ∧
    RepAdmin.check_pool_status 100 100 = Except.ok "online" :=
  ⟨(c4_amended_status_boundaries 33 100 (by decide) (by decide)).1.mpr (by
      rw [show (((33 : Int) : ℚ) / ((100 : Int) : ℚ)) = 33 / 100 by
        norm_num, RN53_val_33]
      norm_num),
   ((c4_amended_status_boundaries 34 100 (by decide) (by decide)).2.1).mpr (by
      constructor <;>
        rw [show (((34 : Int) : ℚ) / ((100 : Int) : ℚ)) = 34 / 100 by
          norm_num, RN53_val_34] <;>
        norm_num),
   ((c4_amended_status_boundaries 67 100 (by decide) (by decide)).2.2.1).mpr
     (by
      constructor <;>
        rw [show (((67 : Int) : ℚ) / ((100 : Int) : ℚ)) = 67 / 100 by
          norm_num, RN53_val_67] <;>
        norm_num),
   ((c4_amended_status_boundaries 100 100 (by decide)
       (by decide)).2.2.2.1).mpr (by
      constructor <;>
        rw [show (((100 : Int) : ℚ) / ((100 : Int) : ℚ)) = 1 by
          norm_num, RN53_val_one] <;>
        norm_num)⟩
